import Mathlib

/-!
# Verification of the credential lifecycle subsystem

This file is a shallow embedding, in Lean 4, of the credential lifecycle
subsystem of the `gmail-mcp-multi-use` repository: PKCE generation
(`gmail_multi_user/oauth/pkce.py`), the token cipher wrapper
(`gmail_multi_user/tokens/encryption.py`), CSRF state issuance and
consumption (`gmail_multi_user/oauth/state.py`), the token lifecycle
manager (`gmail_multi_user/tokens/manager.py`), the OAuth flow
orchestrator (`gmail_multi_user/oauth/manager.py`), and the storage
semantics they rely on (`gmail_multi_user/storage/sqlite.py`).

Conventions used throughout:
* machine integers and bytes are `Nat` with explicit `% 2 ^ w` reductions;
* timestamps (`datetime.utcnow()`) are `Nat` seconds, passed explicitly as
  a `now` argument to each embedded operation;
* fallible Python code (raising typed exceptions) becomes `Except`;
* sources of randomness (`secrets.token_urlsafe`, Fernet nonces) become
  explicit byte-list parameters;
* the storage backend is a pure record of rows, with each backend call an
  atomic function from store to store.
-/

set_option maxRecDepth 10000
set_option maxHeartbeats 1000000

/-! ## SHA-256 (FIPS 180-4), as computed by `hashlib.sha256`

`pkce.py` computes the PKCE challenge as
`base64.urlsafe_b64encode(hashlib.sha256(verifier.encode("ascii")).digest())`
with padding stripped, so we need a concrete SHA-256 over byte lists.
Bytes are `Nat < 256`, words are `Nat < 2^32`.
-/

namespace SHA256

/-- Reduce to a 32-bit word. -/
def w32 (n : Nat) : Nat := n % 4294967296

/-- Rotate a 32-bit word right by `n`. -/
def rotr (n x : Nat) : Nat := w32 ((x >>> n) ||| (x <<< (32 - n)))

def sumA (x : Nat) : Nat := rotr 2 x ^^^ rotr 13 x ^^^ rotr 22 x

def sumE (x : Nat) : Nat := rotr 6 x ^^^ rotr 11 x ^^^ rotr 25 x

def sigLo (x : Nat) : Nat := rotr 7 x ^^^ rotr 18 x ^^^ (x >>> 3)

def sigHi (x : Nat) : Nat := rotr 17 x ^^^ rotr 19 x ^^^ (x >>> 10)

def ch (e f g : Nat) : Nat := (e &&& f) ^^^ ((e ^^^ 4294967295) &&& g)

def maj (a b c : Nat) : Nat := (a &&& b) ^^^ (a &&& c) ^^^ (b &&& c)

/-- The 64 round constants. -/
def kConst : List Nat :=
  [1116352408, 1899447441, 3049323471, 3921009573, 961987163,
   1508970993, 2453635748, 2870763221, 3624381080, 310598401, 607225278,
   1426881987, 1925078388, 2162078206, 2614888103, 3248222580,
   3835390401, 4022224774, 264347078, 604807628, 770255983, 1249150122,
   1555081692, 1996064986, 2554220882, 2821834349, 2952996808,
   3210313671, 3336571891, 3584528711, 113926993, 338241895, 666307205,
   773529912, 1294757372, 1396182291, 1695183700, 1986661051,
   2177026350, 2456956037, 2730485921, 2820302411, 3259730800,
   3345764771, 3516065817, 3600352804, 4094571909, 275423344, 430227734,
   506948616, 659060556, 883997877, 958139571, 1322822218, 1537002063,
   1747873779, 1955562222, 2024104815, 2227730452, 2361852424,
   2428436474, 2756734187, 3204031479, 3329325298]

/-- The eight-word hash state. -/
structure Hash where
  a : Nat
  b : Nat
  c : Nat
  d : Nat
  e : Nat
  f : Nat
  g : Nat
  h : Nat

def initHash : Hash :=
  ⟨1779033703, 3144134277, 1013904242, 2773480762,
   1359893119, 2600822924, 528734635, 1541459225⟩

/-- One compression round; `kw` is the pair (round constant, schedule word). -/
def step (st : Hash) (kw : Nat × Nat) : Hash :=
  let t1 := w32 (st.h + sumE st.e + ch st.e st.f st.g + kw.1 + kw.2)
  let t2 := w32 (sumA st.a + maj st.a st.b st.c)
  ⟨w32 (t1 + t2), st.a, st.b, st.c, w32 (st.d + t1), st.e, st.f, st.g⟩

def addHash (x y : Hash) : Hash :=
  ⟨w32 (x.a + y.a), w32 (x.b + y.b), w32 (x.c + y.c), w32 (x.d + y.d),
   w32 (x.e + y.e), w32 (x.f + y.f), w32 (x.g + y.g), w32 (x.h + y.h)⟩

/-- Extend a 16-word block to the 64-word message schedule (`fuel = 48`). -/
def extendSchedule : Nat → List Nat → List Nat
  | 0, ws => ws
  | n + 1, ws =>
    let l := ws.length
    let nw := w32 (sigHi (ws.getD (l - 2) 0) + ws.getD (l - 7) 0 +
                   sigLo (ws.getD (l - 15) 0) + ws.getD (l - 16) 0)
    extendSchedule n (ws ++ [nw])

/-- Compress one 16-word block into the hash state. -/
def compressBlock (st : Hash) (block : List Nat) : Hash :=
  let ws := extendSchedule 48 block
  addHash st ((kConst.zip ws).foldl step st)

/-- Big-endian bytes to 32-bit words, four at a time. -/
def bytesToWords : List Nat → List Nat
  | b1 :: b2 :: b3 :: b4 :: rest =>
    (b1 * 16777216 + b2 * 65536 + b3 * 256 + b4) :: bytesToWords rest
  | _ => []

/-- Consume the word stream sixteen words (one block) at a time. -/
def processWords : List Nat → Hash → Hash
  | w1 :: w2 :: w3 :: w4 :: w5 :: w6 :: w7 :: w8 ::
    w9 :: w10 :: w11 :: w12 :: w13 :: w14 :: w15 :: w16 :: rest, st =>
    processWords rest
      (compressBlock st [w1, w2, w3, w4, w5, w6, w7, w8,
                         w9, w10, w11, w12, w13, w14, w15, w16])
  | _, st => st

/-- The 64-bit big-endian length field of the padding. -/
def lenBytes (n : Nat) : List Nat :=
  [n / 72057594037927936 % 256, n / 281474976710656 % 256,
   n / 1099511627776 % 256, n / 4294967296 % 256,
   n / 16777216 % 256, n / 65536 % 256, n / 256 % 256, n % 256]

/-- FIPS 180-4 padding: `0x80`, zeros, then the bit length. -/
def pad (msg : List Nat) : List Nat :=
  let l := msg.length
  msg ++ [128] ++ List.replicate ((64 - (l + 9) % 64) % 64) 0 ++ lenBytes (l * 8)

/-- A 32-bit word as four big-endian bytes. -/
def wordBytes (w : Nat) : List Nat :=
  [w / 16777216 % 256, w / 65536 % 256, w / 256 % 256, w % 256]

def digest (st : Hash) : List Nat :=
  wordBytes st.a ++ wordBytes st.b ++ wordBytes st.c ++ wordBytes st.d ++
  wordBytes st.e ++ wordBytes st.f ++ wordBytes st.g ++ wordBytes st.h

/-- SHA-256 of a byte list, as a 32-byte list. -/
def sha256 (msg : List Nat) : List Nat :=
  digest (processWords (bytesToWords (pad msg)) initHash)

theorem wordBytes_length (w : Nat) : (wordBytes w).length = 4 := rfl

theorem wordBytes_lt (w : Nat) : ∀ b ∈ wordBytes w, b < 256 := by
  intro b hb
  simp only [wordBytes, List.mem_cons, List.not_mem_nil, or_false] at hb
  rcases hb with rfl | rfl | rfl | rfl <;> omega

theorem digest_length (st : Hash) : (digest st).length = 32 := by
  simp [digest, wordBytes]

theorem digest_lt (st : Hash) : ∀ b ∈ digest st, b < 256 := by
  intro b hb
  simp only [digest, List.mem_append] at hb
  rcases hb with ((((((h | h) | h) | h) | h) | h) | h) | h <;>
    exact wordBytes_lt _ b h

theorem sha256_length (msg : List Nat) : (sha256 msg).length = 32 :=
  digest_length _

theorem sha256_lt (msg : List Nat) : ∀ b ∈ sha256 msg, b < 256 :=
  digest_lt _

end SHA256

/-! ## URL-safe base64 without padding

`secrets.token_urlsafe(n)` is the URL-safe base64 encoding of `n` random
bytes with the `=` padding stripped, and `PKCE._compute_challenge` strips
the padding of `base64.urlsafe_b64encode` explicitly (`rstrip("=")`), so a
single padding-free encoder models both.  The decoder is used by the token
cipher model.
-/

namespace B64

def alphabet : List Char :=
  "ABCDEFGHIJKLMNOPQRSTUVWXYZabcdefghijklmnopqrstuvwxyz0123456789-_".data

/-- The character for a six-bit group. -/
def enc (n : Nat) : Char := alphabet.getD n 'A'

/-- The six-bit group for a character, `none` for a non-alphabet character. -/
def dec (c : Char) : Option Nat :=
  let i := alphabet.indexOf c
  if i < 64 then some i else none

/-- URL-safe base64 without padding, three bytes to four characters. -/
def encode : List Nat → List Char
  | [] => []
  | [a] => [enc (a / 4), enc (a % 4 * 16)]
  | [a, b] => [enc (a / 4), enc (a % 4 * 16 + b / 16), enc (b % 16 * 4)]
  | a :: b :: c :: rest =>
    enc (a / 4) :: enc (a % 4 * 16 + b / 16) :: enc (b % 16 * 4 + c / 64) ::
      enc (c % 64) :: encode rest

/-- Inverse of `encode`: four characters back to three bytes. -/
def decode : List Char → Option (List Nat)
  | [] => some []
  | [c1, c2] => do
    let s1 ← dec c1
    let s2 ← dec c2
    pure [s1 * 4 + s2 / 16]
  | [c1, c2, c3] => do
    let s1 ← dec c1
    let s2 ← dec c2
    let s3 ← dec c3
    pure [s1 * 4 + s2 / 16, s2 % 16 * 16 + s3 / 4]
  | c1 :: c2 :: c3 :: c4 :: rest => do
    let s1 ← dec c1
    let s2 ← dec c2
    let s3 ← dec c3
    let s4 ← dec c4
    let tail ← decode rest
    pure ((s1 * 4 + s2 / 16) :: (s2 % 16 * 16 + s3 / 4) :: (s3 % 4 * 64 + s4) :: tail)
  | _ => none

theorem dec_enc : ∀ n < 64, dec (enc n) = some n := by decide

theorem enc_mem_alphabet : ∀ n < 64, enc n ∈ alphabet := by decide

theorem decode_encode (bs : List Nat) (hb : ∀ b ∈ bs, b < 256) :
    decode (encode bs) = some bs := by
  induction bs using encode.induct with
  | case1 => rfl
  | case2 a =>
    have ha : a < 256 := hb a (by simp)
    rw [encode, decode, dec_enc _ (by omega), dec_enc _ (by omega)]
    simp only [Option.pure_def, Option.bind_eq_bind, Option.some_bind,
      Option.some.injEq, List.cons.injEq, and_true]
    omega
  | case3 a b =>
    have ha : a < 256 := hb a (by simp)
    have hb2 : b < 256 := hb b (by simp)
    rw [encode, decode, dec_enc _ (by omega), dec_enc _ (by omega),
      dec_enc _ (by omega)]
    simp only [Option.pure_def, Option.bind_eq_bind, Option.some_bind,
      Option.some.injEq, List.cons.injEq, and_true]
    omega
  | case4 a b c rest ih =>
    have ha : a < 256 := hb a (by simp)
    have hb2 : b < 256 := hb b (by simp)
    have hc : c < 256 := hb c (by simp)
    have hrest : ∀ x ∈ rest, x < 256 := fun x hx => hb x (by simp [hx])
    rw [encode, decode, dec_enc _ (by omega), dec_enc _ (by omega),
      dec_enc _ (by omega), dec_enc _ (by omega), ih hrest]
    simp only [Option.pure_def, Option.bind_eq_bind, Option.some_bind,
      Option.some.injEq, List.cons.injEq]
    exact ⟨by omega, by omega, by omega, trivial⟩

theorem encode_length (bs : List Nat) :
    (encode bs).length = (bs.length * 4 + 2) / 3 := by
  induction bs using encode.induct with
  | case1 => rfl
  | case2 a => rw [encode]; simp
  | case3 a b => rw [encode]; simp
  | case4 a b c rest ih =>
    rw [encode]; simp only [List.length_cons, ih]; omega

theorem encode_mem (bs : List Nat) (hb : ∀ b ∈ bs, b < 256) :
    ∀ ch ∈ encode bs, ch ∈ alphabet := by
  induction bs using encode.induct with
  | case1 => simp [encode]
  | case2 a =>
    have ha : a < 256 := hb a (by simp)
    intro ch hch
    simp only [encode, List.mem_cons, List.not_mem_nil, or_false] at hch
    rcases hch with rfl | rfl <;> exact enc_mem_alphabet _ (by omega)
  | case3 a b =>
    have ha : a < 256 := hb a (by simp)
    have hb2 : b < 256 := hb b (by simp)
    intro ch hch
    simp only [encode, List.mem_cons, List.not_mem_nil, or_false] at hch
    rcases hch with rfl | rfl | rfl <;> exact enc_mem_alphabet _ (by omega)
  | case4 a b c rest ih =>
    have ha : a < 256 := hb a (by simp)
    have hb2 : b < 256 := hb b (by simp)
    have hc : c < 256 := hb c (by simp)
    have hrest : ∀ x ∈ rest, x < 256 := fun x hx => hb x (by simp [hx])
    intro ch hch
    simp only [encode, List.mem_cons] at hch
    rcases hch with rfl | rfl | rfl | rfl | hch
    · exact enc_mem_alphabet _ (by omega)
    · exact enc_mem_alphabet _ (by omega)
    · exact enc_mem_alphabet _ (by omega)
    · exact enc_mem_alphabet _ (by omega)
    · exact ih hrest ch hch

end B64

/-! ## UTF-8

`encryption.py` encrypts `plaintext.encode("utf-8")` and decodes the
decrypted bytes with `.decode("utf-8")`.  We embed the UTF-8 codec over
Unicode scalar values (Lean `Char`s; the same value space Python strings
use, minus unpaired surrogates, which cannot be UTF-8 encoded under
Python's strict codec either).
-/

namespace UTF8

/-- UTF-8 bytes of one Unicode scalar value. -/
def encodeCP (n : Nat) : List Nat :=
  if n < 128 then [n]
  else if n < 2048 then [192 + n / 64, 128 + n % 64]
  else if n < 65536 then [224 + n / 4096, 128 + n / 64 % 64, 128 + n % 64]
  else [240 + n / 262144, 128 + n / 4096 % 64, 128 + n / 64 % 64, 128 + n % 64]

def encodeChars : List Char → List Nat
  | [] => []
  | c :: cs => encodeCP c.toNat ++ encodeChars cs

/-- `str.encode("utf-8")` of a Python string. -/
def encode (s : String) : List Nat := encodeChars s.data

/-- Decode one UTF-8 scalar value from a lead byte and the following
bytes, returning the scalar and the unconsumed bytes.  Rejects bad lead
bytes, bad continuation bytes, overlong forms, surrogates and values above
U+10FFFF, as Python's strict `bytes.decode("utf-8")` does. -/
def decodeOne (b1 : Nat) (t1 : List Nat) : Option (Nat × List Nat) :=
  if b1 < 128 then some (b1, t1)
  else if b1 < 194 then none
  else if b1 < 224 then
    match t1 with
    | b2 :: t2 =>
      if 128 ≤ b2 ∧ b2 < 192 then
        some ((b1 - 192) * 64 + (b2 - 128), t2)
      else none
    | _ => none
  else if b1 < 240 then
    match t1 with
    | b2 :: b3 :: t3 =>
      let n := (b1 - 224) * 4096 + (b2 - 128) * 64 + (b3 - 128)
      if (128 ≤ b2 ∧ b2 < 192) ∧ (128 ≤ b3 ∧ b3 < 192) ∧ 2048 ≤ n ∧
          (n < 55296 ∨ 57344 ≤ n) then
        some (n, t3)
      else none
    | _ => none
  else if b1 < 245 then
    match t1 with
    | b2 :: b3 :: b4 :: t4 =>
      let n := (b1 - 240) * 262144 + (b2 - 128) * 4096 +
               (b3 - 128) * 64 + (b4 - 128)
      if (128 ≤ b2 ∧ b2 < 192) ∧ (128 ≤ b3 ∧ b3 < 192) ∧
          (128 ≤ b4 ∧ b4 < 192) ∧ 65536 ≤ n ∧ n < 1114112 then
        some (n, t4)
      else none
    | _ => none
  else none

/-- Decode a byte list to scalar values; the fuel bounds the number of
scalars and is decremented once per decoded scalar. -/
def go : Nat → List Nat → Option (List Nat)
  | _, [] => some []
  | 0, _ :: _ => none
  | fuel + 1, b1 :: t1 =>
    match decodeOne b1 t1 with
    | some (n, rest) => (n :: ·) <$> go fuel rest
    | none => none

/-- Strict UTF-8 decoding to scalar values (a byte list never decodes to
more scalars than it has bytes, so the length is enough fuel). -/
def decodeCPs (bs : List Nat) : Option (List Nat) := go bs.length bs

/-- `bytes.decode("utf-8")` of a byte list. -/
def decode (bs : List Nat) : Option String :=
  (decodeCPs bs).map (fun ns => String.mk (ns.map Char.ofNat))

/-- A scalar value in the `Char` value space. -/
def ValidCP (n : Nat) : Prop := n < 55296 ∨ (57344 ≤ n ∧ n < 1114112)

theorem encodeCP_lt {n : Nat} (hv : ValidCP n) : ∀ b ∈ encodeCP n, b < 256 := by
  intro b hb
  have hn : n < 1114112 := by rcases hv with h | h <;> omega
  unfold encodeCP at hb
  split at hb
  · simp only [List.mem_cons, List.not_mem_nil, or_false] at hb
    omega
  · split at hb
    · simp only [List.mem_cons, List.not_mem_nil, or_false] at hb
      rcases hb with rfl | rfl <;> omega
    · split at hb
      · simp only [List.mem_cons, List.not_mem_nil, or_false] at hb
        rcases hb with rfl | rfl | rfl <;> omega
      · simp only [List.mem_cons, List.not_mem_nil, or_false] at hb
        rcases hb with rfl | rfl | rfl | rfl <;> omega

theorem encodeCP_length_pos (n : Nat) : 1 ≤ (encodeCP n).length := by
  unfold encodeCP
  split
  · simp
  · split
    · simp
    · split <;> simp

theorem decodeOne_one {n : Nat} (h1 : n < 128) (rest : List Nat) :
    decodeOne n rest = some (n, rest) := by
  rw [decodeOne.eq_def, if_pos h1]

theorem decodeOne_two {n : Nat} (h1 : 128 ≤ n) (h2 : n < 2048)
    (rest : List Nat) :
    decodeOne (192 + n / 64) ((128 + n % 64) :: rest) = some (n, rest) := by
  rw [decodeOne.eq_def]
  rw [if_neg (by omega), if_neg (by omega), if_pos (by omega)]
  simp only
  rw [if_pos (by constructor <;> omega)]
  simp only [Option.some.injEq, Prod.mk.injEq]
  exact ⟨by omega, trivial⟩

theorem decodeOne_three {n : Nat} (h1 : 2048 ≤ n) (h2 : n < 65536)
    (hs : n < 55296 ∨ 57344 ≤ n) (rest : List Nat) :
    decodeOne (224 + n / 4096)
      ((128 + n / 64 % 64) :: (128 + n % 64) :: rest) = some (n, rest) := by
  rw [decodeOne.eq_def]
  rw [if_neg (by omega), if_neg (by omega), if_neg (by omega),
    if_pos (by omega)]
  simp only
  rw [if_pos (by refine ⟨⟨by omega, by omega⟩, ⟨by omega, by omega⟩,
    by omega, by omega⟩)]
  simp only [Option.some.injEq, Prod.mk.injEq]
  exact ⟨by omega, trivial⟩

theorem decodeOne_four {n : Nat} (h1 : 65536 ≤ n) (h2 : n < 1114112)
    (rest : List Nat) :
    decodeOne (240 + n / 262144)
      ((128 + n / 4096 % 64) :: (128 + n / 64 % 64) :: (128 + n % 64) :: rest)
      = some (n, rest) := by
  rw [decodeOne.eq_def]
  rw [if_neg (by omega), if_neg (by omega), if_neg (by omega),
    if_neg (by omega), if_pos (by omega)]
  simp only
  rw [if_pos (by refine ⟨⟨by omega, by omega⟩, ⟨by omega, by omega⟩,
    ⟨by omega, by omega⟩, by omega, by omega⟩)]
  simp only [Option.some.injEq, Prod.mk.injEq]
  exact ⟨by omega, trivial⟩

theorem go_encodeCP {n : Nat} (hv : ValidCP n) (rest : List Nat) (fuel : Nat) :
    go (fuel + 1) (encodeCP n ++ rest) = (n :: ·) <$> go fuel rest := by
  by_cases h1 : n < 128
  · rw [encodeCP, if_pos h1, List.cons_append, List.nil_append, go,
      decodeOne_one h1]
  · by_cases h2 : n < 2048
    · rw [encodeCP, if_neg h1, if_pos h2]
      rw [show [192 + n / 64, 128 + n % 64] ++ rest =
        (192 + n / 64) :: (128 + n % 64) :: rest from rfl]
      rw [go, decodeOne_two (by omega) h2]
    · by_cases h3 : n < 65536
      · have hs : n < 55296 ∨ 57344 ≤ n := by
          rcases hv with hv | hv
          · exact Or.inl hv
          · exact Or.inr hv.1
        rw [encodeCP, if_neg h1, if_neg h2, if_pos h3]
        rw [show [224 + n / 4096, 128 + n / 64 % 64, 128 + n % 64] ++ rest =
          (224 + n / 4096) :: (128 + n / 64 % 64) :: (128 + n % 64) :: rest
          from rfl]
        rw [go, decodeOne_three (by omega) h3 hs]
      · have hn : 65536 ≤ n ∧ n < 1114112 := by
          rcases hv with hv | hv <;> omega
        rw [encodeCP, if_neg h1, if_neg h2, if_neg h3]
        rw [show [240 + n / 262144, 128 + n / 4096 % 64, 128 + n / 64 % 64,
            128 + n % 64] ++ rest =
          (240 + n / 262144) :: (128 + n / 4096 % 64) :: (128 + n / 64 % 64) ::
            (128 + n % 64) :: rest from rfl]
        rw [go, decodeOne_four hn.1 hn.2]

theorem char_validCP (c : Char) : ValidCP c.toNat := by
  have h := c.valid
  simp only [UInt32.isValidChar, Nat.isValidChar] at h
  rcases h with h | h
  · exact Or.inl h
  · exact Or.inr h

theorem go_encodeChars (cs : List Char) (fuel : Nat) (hf : cs.length ≤ fuel) :
    go fuel (encodeChars cs) = some (cs.map Char.toNat) := by
  induction cs generalizing fuel with
  | nil => cases fuel <;> rfl
  | cons c cs ih =>
    match fuel with
    | 0 => simp at hf
    | f + 1 =>
      have hf2 : cs.length ≤ f := by
        simp only [List.length_cons] at hf
        omega
      rw [encodeChars, go_encodeCP (char_validCP c), ih f hf2]
      rfl

theorem encodeChars_length_ge (cs : List Char) :
    cs.length ≤ (encodeChars cs).length := by
  induction cs with
  | nil => simp [encodeChars]
  | cons c cs ih =>
    rw [encodeChars, List.length_append, List.length_cons]
    have := encodeCP_length_pos c.toNat
    omega

theorem decodeCPs_encodeChars (cs : List Char) :
    decodeCPs (encodeChars cs) = some (cs.map Char.toNat) :=
  go_encodeChars cs _ (encodeChars_length_ge cs)

theorem decode_encode_string (s : String) : decode (encode s) = some s := by
  rw [decode, encode, decodeCPs_encodeChars]
  simp only [Option.map_some']
  congr 1
  rw [List.map_map]
  have : (Char.ofNat ∘ Char.toNat) = id := by
    funext c
    exact Char.ofNat_toNat c
  rw [this, List.map_id]

theorem encode_lt (s : String) : ∀ b ∈ encode s, b < 256 := by
  rw [encode]
  generalize s.data = cs
  induction cs with
  | nil => simp [encodeChars]
  | cons c cs ih =>
    intro b hb
    rw [encodeChars] at hb
    rcases List.mem_append.mp hb with h | h
    · exact encodeCP_lt (char_validCP c) b h
    · exact ih b h

end UTF8

/-! ## The token cipher

`tokens/encryption.py` delegates the cipher itself to
`cryptography.fernet.Fernet`, a third-party library that is not part of
this repository; the repository only contains the wrapper (UTF-8 encoding
of the plaintext, string form of the token, and mapping every failure to
the typed `TokenError` with code `"encryption_error"`).
-/

/-- The typed error raised by `exceptions.TokenError`; we keep the
`message` and `code` fields the claims talk about. -/
structure TokenError where
  message : String
  code : String
deriving DecidableEq

namespace Fernet

/-- Modelled from the spec: the cipher internals (`cryptography.fernet`)
are outside `src/`.  Spec §4.2 requires an authenticated symmetric cipher
under one configured key, a fresh random nonce per call, and typed failure
(never garbage) on key mismatch, truncation, corruption or tampering.  We
model such a cipher concretely: a SHA-256 based keystream seeded by key
and nonce, XORed with the plaintext, authenticated by a SHA-256 tag over
key, nonce and ciphertext, the whole token base64url-encoded. -/
def block (key nonce : List Nat) (i : Nat) : List Nat :=
  SHA256.sha256 (key ++ nonce ++ SHA256.wordBytes i)

/-- Concatenation of the first `n` keystream blocks. -/
def ksBlocks (key nonce : List Nat) : Nat → List Nat
  | 0 => []
  | n + 1 => ksBlocks key nonce n ++ block key nonce n

/-- The first `len` keystream bytes. -/
def keystream (key nonce : List Nat) (len : Nat) : List Nat :=
  (ksBlocks key nonce ((len + 31) / 32)).take len

def xorBytes (ks pt : List Nat) : List Nat := List.zipWith (· ^^^ ·) ks pt

/-- The authentication tag over the token body. -/
def tag (key bs : List Nat) : List Nat := SHA256.sha256 (key ++ bs)

/-- Token bytes: nonce, ciphertext, tag. -/
def encryptBytes (key nonce pt : List Nat) : List Nat :=
  let ct := xorBytes (keystream key nonce pt.length) pt
  nonce ++ ct ++ tag key (nonce ++ ct)

/-- Parse and authenticate token bytes; `none` on truncation or on a tag
mismatch (tampering or wrong key). -/
def decryptBytes (key bs : List Nat) : Option (List Nat) :=
  if bs.length < 48 then none
  else if bs.drop (bs.length - 32) = tag key (bs.take (bs.length - 32)) then
    some (xorBytes (keystream key (bs.take 16) (bs.length - 48))
      ((bs.drop 16).take (bs.length - 48)))
  else none

theorem ksBlocks_length (key nonce : List Nat) (n : Nat) :
    (ksBlocks key nonce n).length = 32 * n := by
  induction n with
  | zero => rfl
  | succ n ih =>
    rw [ksBlocks, List.length_append, ih, block, SHA256.sha256_length]
    omega

theorem ksBlocks_lt (key nonce : List Nat) (n : Nat) :
    ∀ b ∈ ksBlocks key nonce n, b < 256 := by
  induction n with
  | zero => simp [ksBlocks]
  | succ n ih =>
    intro b hb
    rw [ksBlocks] at hb
    rcases List.mem_append.mp hb with h | h
    · exact ih b h
    · exact SHA256.sha256_lt _ b h

theorem keystream_length (key nonce : List Nat) (len : Nat) :
    (keystream key nonce len).length = len := by
  rw [keystream, List.length_take, ksBlocks_length]
  omega

theorem keystream_lt (key nonce : List Nat) (len : Nat) :
    ∀ b ∈ keystream key nonce len, b < 256 := fun b hb =>
  ksBlocks_lt key nonce _ b (List.mem_of_mem_take hb)

theorem xorBytes_length (ks pt : List Nat) :
    (xorBytes ks pt).length = min ks.length pt.length :=
  List.length_zipWith ..

theorem xorBytes_lt (ks pt : List Nat) (hk : ∀ b ∈ ks, b < 256)
    (hp : ∀ b ∈ pt, b < 256) : ∀ b ∈ xorBytes ks pt, b < 256 := by
  induction ks generalizing pt with
  | nil => simp [xorBytes]
  | cons k ks ih =>
    intro b hb
    cases pt with
    | nil => simp [xorBytes] at hb
    | cons p pt =>
      rw [xorBytes, List.zipWith_cons_cons] at hb
      rcases List.mem_cons.mp hb with rfl | hb
      · have h1 : k < 2 ^ 8 := hk k (by simp)
        have h2 : p < 2 ^ 8 := hp p (by simp)
        exact Nat.xor_lt_two_pow h1 h2
      · exact ih pt (fun x hx => hk x (by simp [hx]))
          (fun x hx => hp x (by simp [hx])) b hb

theorem xorBytes_xorBytes (ks pt : List Nat) (h : ks.length = pt.length) :
    xorBytes ks (xorBytes ks pt) = pt := by
  induction ks generalizing pt with
  | nil =>
    cases pt with
    | nil => rfl
    | cons p pt => simp at h
  | cons k ks ih =>
    cases pt with
    | nil => simp at h
    | cons p pt =>
      have hh : k ^^^ (k ^^^ p) = p := by
        rw [← Nat.xor_assoc, Nat.xor_self, Nat.zero_xor]
      have hl : ks.length = pt.length := by simpa using h
      simp only [xorBytes, List.zipWith_cons_cons]
      rw [hh]
      exact congrArg (p :: ·) (ih pt hl)

theorem decryptBytes_encryptBytes (key nonce pt : List Nat)
    (hn : nonce.length = 16) :
    decryptBytes key (encryptBytes key nonce pt) = some pt := by
  rw [encryptBytes]
  have hks : (keystream key nonce pt.length).length = pt.length :=
    keystream_length ..
  set ct := xorBytes (keystream key nonce pt.length) pt with hct
  have hctl : ct.length = pt.length := by
    rw [hct, xorBytes_length, hks, min_self]
  have hts : (tag key (nonce ++ ct)).length = 32 := SHA256.sha256_length _
  have hlen : (nonce ++ ct ++ tag key (nonce ++ ct)).length =
      48 + ct.length := by
    simp only [List.length_append, hts, hn]
    omega
  rw [decryptBytes, if_neg (by omega)]
  have e1 : (nonce ++ ct ++ tag key (nonce ++ ct)).length - 32 =
      (nonce ++ ct).length := by
    simp only [hlen, List.length_append, hn]
    omega
  have e2 : nonce ++ ct ++ tag key (nonce ++ ct) =
      (nonce ++ ct) ++ tag key (nonce ++ ct) := by
    rw [List.append_assoc]
  rw [e1, e2, List.drop_left, List.take_left, if_pos rfl]
  have e3 : ((nonce ++ ct) ++ tag key (nonce ++ ct)).length - 48 =
      ct.length := by
    simp only [List.length_append, hts, hn]
    omega
  have e4 : ((nonce ++ ct) ++ tag key (nonce ++ ct)).take 16 = nonce := by
    rw [List.append_assoc, ← hn, List.take_left]
  have e5 : ((nonce ++ ct) ++ tag key (nonce ++ ct)).drop 16 =
      ct ++ tag key (nonce ++ ct) := by
    rw [List.append_assoc, ← hn, List.drop_left]
  rw [e3, e4, e5, List.take_left, hctl, hct]
  exact congrArg some (xorBytes_xorBytes _ _ hks)

end Fernet

theorem encryptBytes_lt (key nonce pt : List Nat)
    (hnb : ∀ b ∈ nonce, b < 256) (hpb : ∀ b ∈ pt, b < 256) :
    ∀ b ∈ Fernet.encryptBytes key nonce pt, b < 256 := by
  intro b hb
  rw [Fernet.encryptBytes] at hb
  simp only [List.mem_append] at hb
  rcases hb with (h | h) | h
  · exact hnb b h
  · exact Fernet.xorBytes_lt _ _ (Fernet.keystream_lt _ _ _) hpb b h
  · exact SHA256.sha256_lt _ b h

namespace TokenEncryption

/-- `TokenEncryption.encrypt` (`tokens/encryption.py`): UTF-8 encode the
plaintext, encrypt it under the configured key with a fresh nonce (the
randomness is the explicit `nonce` argument), and return the token, an
ASCII base64 string. -/
def encrypt (key nonce : List Nat) (plaintext : String) : String :=
  String.mk (B64.encode (Fernet.encryptBytes key nonce
    (UTF8.encode plaintext)))

/-- `TokenEncryption.decrypt` (`tokens/encryption.py`): any failure while
parsing, authenticating, or UTF-8 decoding the token is a `TokenError`
with code `"encryption_error"`, never garbage output. -/
def decrypt (key : List Nat) (ciphertext : String) :
    Except TokenError String :=
  match B64.decode ciphertext.data with
  | none => .error ⟨"Decryption failed: invalid key or tampered data",
      "encryption_error"⟩
  | some bs =>
    match Fernet.decryptBytes key bs with
    | none => .error ⟨"Decryption failed: invalid key or tampered data",
        "encryption_error"⟩
    | some pt =>
      match UTF8.decode pt with
      | none => .error ⟨"Decryption failed: invalid key or tampered data",
          "encryption_error"⟩
      | some s => .ok s

theorem decrypt_encrypt (key nonce : List Nat) (s : String)
    (hn : nonce.length = 16) (hnb : ∀ b ∈ nonce, b < 256) :
    decrypt key (encrypt key nonce s) = Except.ok s := by
  rw [decrypt, encrypt]
  rw [show (String.mk (B64.encode (Fernet.encryptBytes key nonce
    (UTF8.encode s)))).data = B64.encode (Fernet.encryptBytes key nonce
    (UTF8.encode s)) from rfl]
  rw [B64.decode_encode _ (encryptBytes_lt key nonce _ hnb (UTF8.encode_lt s))]
  simp only
  rw [Fernet.decryptBytes_encryptBytes key nonce _ hn]
  simp only
  rw [UTF8.decode_encode_string]

end TokenEncryption

/-! ## PKCE (`oauth/pkce.py`) -/

namespace PKCE

/-- RFC 7636 bounds from `pkce.py`. -/
def MIN_VERIFIER_LENGTH : Nat := 43

def MAX_VERIFIER_LENGTH : Nat := 128

def DEFAULT_VERIFIER_LENGTH : Nat := 64

/-- The RFC 7636 unreserved charset allowed by `_validate_verifier`. -/
def allowedChars : List Char :=
  "ABCDEFGHIJKLMNOPQRSTUVWXYZabcdefghijklmnopqrstuvwxyz0123456789-._~".data

/-- `PKCE._validate_verifier`: length bounds and charset check; a
violation raises `ValueError`, modelled as the error message. -/
def validateVerifier (v : String) : Except String Unit :=
  if v.length < MIN_VERIFIER_LENGTH then
    .error "Code verifier too short"
  else if v.length > MAX_VERIFIER_LENGTH then
    .error "Code verifier too long"
  else if v.data.all (fun c => c ∈ allowedChars) then .ok ()
  else .error "Invalid character in code verifier"

/-- `PKCE._compute_challenge`:
`base64.urlsafe_b64encode(hashlib.sha256(verifier.encode("ascii")).digest())`
with the `=` padding removed; `encode("ascii")` raises on a non-ASCII
character. -/
def computeChallenge (v : String) : Except String String :=
  if v.data.all (fun c => c.toNat < 128) then
    .ok (String.mk (B64.encode (SHA256.sha256 (v.data.map Char.toNat))))
  else .error "ascii codec cannot encode character"

/-- The verifier/challenge pair held by a `PKCE` instance. -/
structure Pair where
  code_verifier : String
  code_challenge : String
deriving DecidableEq

/-- `PKCE.__init__`: validate the verifier, then compute and store the
challenge. -/
def build (v : String) : Except String Pair := do
  let _ ← validateVerifier v
  let ch ← computeChallenge v
  pure ⟨v, ch⟩

/-- `PKCE._generate_verifier`: `secrets.token_urlsafe(num_bytes)`
truncated to `length`; the randomness is the explicit `rand` byte list
(the bytes that `token_urlsafe` base64url-encodes). -/
def generateVerifier (rand : List Nat) (length : Nat) : String :=
  String.mk ((B64.encode rand).take length)

/-- `PKCE.generate`: reject a length outside `[43, 128]` with
`ValueError`, else generate a verifier of that length and build the pair.
`num_bytes = (length * 6 + 7) // 8` is the byte count handed to
`token_urlsafe`; theorems require `rand` to have that length. -/
def generate (rand : List Nat) (length : Nat) : Except String Pair :=
  if length < MIN_VERIFIER_LENGTH ∨ length > MAX_VERIFIER_LENGTH then
    .error "Verifier length must be between 43 and 128"
  else build (generateVerifier rand length)

theorem alphabet_sub_allowed : ∀ c ∈ B64.alphabet, c ∈ allowedChars := by
  decide

theorem allowed_ascii : ∀ c ∈ allowedChars, c.toNat < 128 := by decide

theorem generateVerifier_length (rand : List Nat) (L : Nat)
    (hr : rand.length = (L * 6 + 7) / 8) :
    (generateVerifier rand L).length = L := by
  show ((B64.encode rand).take L).length = L
  rw [List.length_take, B64.encode_length, hr]
  omega

theorem generateVerifier_chars (rand : List Nat) (L : Nat)
    (hb : ∀ b ∈ rand, b < 256) :
    ∀ c ∈ (generateVerifier rand L).data, c ∈ allowedChars := by
  intro c hc
  have hc2 : c ∈ B64.encode rand := List.mem_of_mem_take hc
  exact alphabet_sub_allowed c (B64.encode_mem rand hb c hc2)

theorem build_generateVerifier (rand : List Nat) (L : Nat)
    (h1 : 43 ≤ L) (h2 : L ≤ 128)
    (hr : rand.length = (L * 6 + 7) / 8) (hb : ∀ b ∈ rand, b < 256) :
    build (generateVerifier rand L) =
      .ok ⟨generateVerifier rand L,
        String.mk (B64.encode (SHA256.sha256
          ((generateVerifier rand L).data.map Char.toNat)))⟩ := by
  have hlen := generateVerifier_length rand L hr
  have hchars := generateVerifier_chars rand L hb
  rw [build, validateVerifier]
  rw [if_neg (by rw [hlen]; simp only [MIN_VERIFIER_LENGTH]; omega)]
  rw [if_neg (by rw [hlen]; simp only [MAX_VERIFIER_LENGTH]; omega)]
  rw [if_pos (List.all_eq_true.mpr (fun c hc => decide_eq_true (hchars c hc)))]
  rw [computeChallenge,
    if_pos (List.all_eq_true.mpr
      (fun c hc => decide_eq_true (allowed_ascii c (hchars c hc))))]
  rfl

end PKCE

/-! ## Data model (`types.py`) and storage semantics (`storage/sqlite.py`)

Rows live in a pure `Store`; each storage-backend call is one atomic
function on it (each `sqlite.py` method is a single SQL statement plus
commit).  Timestamps are `Nat` seconds UTC.
-/

/-- `types.User`. -/
structure User where
  id : String
  external_user_id : String
  email : Option String
  created_at : Nat
  updated_at : Nat
deriving DecidableEq

/-- `types.Connection`. -/
structure Connection where
  id : String
  user_id : String
  gmail_address : String
  access_token_encrypted : String
  refresh_token_encrypted : String
  token_expires_at : Nat
  scopes : List String
  is_active : Bool
  created_at : Nat
  updated_at : Nat
  last_used_at : Option Nat
deriving DecidableEq

/-- `types.OAuthState`. -/
structure OAuthState where
  id : String
  state : String
  user_id : String
  scopes : List String
  redirect_uri : String
  code_verifier : String
  expires_at : Nat
  created_at : Nat
deriving DecidableEq

/-- `OAuthState.is_expired`: `datetime.utcnow() > self.expires_at`. -/
def OAuthState.isExpired (os : OAuthState) (now : Nat) : Bool :=
  decide (now > os.expires_at)

/-- The rows owned by the storage backend. -/
structure Store where
  users : List User
  connections : List Connection
  oauthStates : List OAuthState
deriving DecidableEq

/-- `exceptions.StorageError` (message and code). -/
structure StorageError where
  message : String
  code : String
deriving DecidableEq

/-- `exceptions.AuthError` (message and code). -/
structure AuthError where
  message : String
  code : String
deriving DecidableEq

namespace Storage

/-- `SQLiteBackend.get_oauth_state`: `SELECT ... WHERE state = ?`. -/
def getOAuthState (st : Store) (state : String) : Option OAuthState :=
  st.oauthStates.find? (fun os => os.state = state)

/-- `SQLiteBackend.delete_oauth_state`: an unconditional
`DELETE FROM oauth_states WHERE state = ?` that reports nothing back. -/
def deleteOAuthState (st : Store) (state : String) : Store :=
  { st with oauthStates := st.oauthStates.filter (fun os => os.state ≠ state) }

/-- `SQLiteBackend.create_oauth_state` (the `state` column is UNIQUE;
callers pass a fresh random token). -/
def createOAuthState (st : Store) (os : OAuthState) : Store :=
  { st with oauthStates := os :: st.oauthStates }

/-- `SQLiteBackend.get_connection`: `SELECT ... WHERE id = ?`. -/
def getConnection (st : Store) (cid : String) : Option Connection :=
  st.connections.find? (fun c => c.id = cid)

/-- `SQLiteBackend.get_connection_by_user_and_email`. -/
def getConnectionByUserAndEmail (st : Store) (uid addr : String) :
    Option Connection :=
  st.connections.find? (fun c => c.user_id = uid ∧ c.gmail_address = addr)

/-- `SQLiteBackend.get_user_by_id`. -/
def getUserById (st : Store) (uid : String) : Option User :=
  st.users.find? (fun u => u.id = uid)

/-- The `UPDATE` applied to one row: the token columns — with
`refresh_token_encrypted` only when the new value is truthy (neither
`None` nor `""`) — and `updated_at = now`. -/
def tokenRow (now : Nat) (cid accessTokenEncrypted : String)
    (refreshTokenEncrypted : Option String) (tokenExpiresAt : Nat)
    (c : Connection) : Connection :=
  if c.id = cid then
    { c with
      access_token_encrypted := accessTokenEncrypted,
      refresh_token_encrypted :=
        match refreshTokenEncrypted with
        | some r => if r = "" then c.refresh_token_encrypted else r
        | none => c.refresh_token_encrypted,
      token_expires_at := tokenExpiresAt,
      updated_at := now }
  else c

/-- `SQLiteBackend.update_connection_tokens`: one `UPDATE` (`tokenRow` on
every matching row) followed by a re-read of the row, `StorageError` when
the id does not exist. -/
def updateConnectionTokens (now : Nat) (st : Store) (cid : String)
    (accessTokenEncrypted : String) (refreshTokenEncrypted : Option String)
    (tokenExpiresAt : Nat) : Except StorageError (Connection × Store) :=
  let st2 : Store := { st with
    connections := st.connections.map (tokenRow now cid
      accessTokenEncrypted refreshTokenEncrypted tokenExpiresAt) }
  match getConnection st2 cid with
  | some c => .ok (c, st2)
  | none => .error ⟨"Connection not found", "query_failed"⟩

/-- The row-level effect of `update_connection_last_used`. -/
def lastUsedRow (now : Nat) (cid : String) (c : Connection) : Connection :=
  if c.id = cid then { c with last_used_at := some now } else c

/-- `SQLiteBackend.update_connection_last_used`. -/
def updateConnectionLastUsed (now : Nat) (st : Store) (cid : String) :
    Store :=
  { st with connections := st.connections.map (lastUsedRow now cid) }

/-- The row-level effect of `deactivate_connection`. -/
def deactivateRow (now : Nat) (cid : String) (c : Connection) : Connection :=
  if c.id = cid then { c with is_active := false, updated_at := now }
  else c

/-- `SQLiteBackend.deactivate_connection`: `is_active = 0`,
`updated_at = now` on the matching row. -/
def deactivateConnection (now : Nat) (st : Store) (cid : String) : Store :=
  { st with connections := st.connections.map (deactivateRow now cid) }

/-- `SQLiteBackend.get_expiring_connections`: active connections with
`token_expires_at < expires_before`. -/
def getExpiringConnections (st : Store) (expiresBefore : Nat) :
    List Connection :=
  st.connections.filter
    (fun c => c.is_active ∧ c.token_expires_at < expiresBefore)

/-- `SQLiteBackend.create_connection`: INSERT with `is_active = 1` and a
fresh id (the generated uuid is the explicit `cid` argument). -/
def createConnection (now : Nat) (st : Store) (cid uid addr : String)
    (accessTokenEncrypted refreshTokenEncrypted : String)
    (tokenExpiresAt : Nat) (scopes : List String) : Connection × Store :=
  let c : Connection :=
    ⟨cid, uid, addr, accessTokenEncrypted, refreshTokenEncrypted,
     tokenExpiresAt, scopes, true, now, now, none⟩
  (c, { st with connections := c :: st.connections })

end Storage

/-! ## CSRF state manager (`oauth/state.py`) -/

namespace OAuthStateManager

def DEFAULT_TTL_SECONDS : Nat := 600

/-- `OAuthStateManager.create_state`: the random state string
(`secrets.token_urlsafe(32)`) and the generated PKCE verifier are explicit
arguments, as is the row id the backend generates; computes
`expires_at = now + ttl` and persists the record. -/
def createState (now ttl : Nat) (st : Store)
    (stateId stateString codeVerifier userId : String)
    (scopes : List String) (redirectUri : String) : OAuthState × Store :=
  let os : OAuthState :=
    ⟨stateId, stateString, userId, scopes, redirectUri, codeVerifier,
     now + ttl, now⟩
  (os, Storage.createOAuthState st os)

/-- `OAuthStateManager.validate_and_consume`: read the state; absent →
`AuthError("invalid_state")`; expired → delete and
`AuthError("state_expired")`; else delete (single-use) and return it. -/
def validateAndConsume (now : Nat) (st : Store) (state : String) :
    Except AuthError OAuthState × Store :=
  match Storage.getOAuthState st state with
  | none =>
    (.error ⟨"Invalid OAuth state parameter", "invalid_state"⟩, st)
  | some os =>
    if os.isExpired now then
      (.error ⟨"OAuth state has expired. Please restart the authorization flow.",
        "state_expired"⟩, Storage.deleteOAuthState st state)
    else
      (.ok os, Storage.deleteOAuthState st state)

end OAuthStateManager

/-! ## Interleaved execution of `validate_and_consume` (spec §5)

`validate_and_consume` makes two storage calls in sequence: a read
(`get_oauth_state`) and an unconditional delete (`delete_oauth_state`),
with no transaction or conditional delete around them.  Each storage call
is atomic, the pair is not.  We model an in-flight call as a task that
performs one storage call per step.
-/

/-- The control point of one in-flight `validate_and_consume` call. -/
inductive ConsumePC where
  | start
  | afterGet (r : Option OAuthState)
  | done (r : Except AuthError OAuthState)

/-- One atomic step (one storage call) of an in-flight
`validate_and_consume(state)` call. -/
def consumeStep (now : Nat) (state : String) :
    ConsumePC → Store → ConsumePC × Store
  | .start, st => (.afterGet (Storage.getOAuthState st state), st)
  | .afterGet none, st =>
    (.done (.error ⟨"Invalid OAuth state parameter", "invalid_state"⟩), st)
  | .afterGet (some os), st =>
    if os.isExpired now then
      (.done (.error ⟨"OAuth state has expired. Please restart the authorization flow.",
        "state_expired"⟩), Storage.deleteOAuthState st state)
    else
      (.done (.ok os), Storage.deleteOAuthState st state)
  | .done r, st => (.done r, st)

/-- Two steps of a single task from `start` compute exactly the
sequential `validate_and_consume`: the step model refines the embedding. -/
theorem consumeStep_seq (now : Nat) (state : String) (st : Store) :
    (let s1 := consumeStep now state .start st
     consumeStep now state s1.1 s1.2) =
      (.done (OAuthStateManager.validateAndConsume now st state).1,
        (OAuthStateManager.validateAndConsume now st state).2) := by
  rw [OAuthStateManager.validateAndConsume]
  cases h : Storage.getOAuthState st state with
  | none => simp [consumeStep, h]
  | some os =>
    by_cases he : os.isExpired now
    · simp [consumeStep, h, he]
    · simp [consumeStep, h, he]

/-- Run two in-flight calls on the same token under a schedule: `true`
steps the first task, `false` the second. -/
def runTwo (now : Nat) (state : String) :
    List Bool → ConsumePC × ConsumePC × Store → ConsumePC × ConsumePC × Store
  | [], s => s
  | b :: rest, (p1, p2, st) =>
    if b then
      let s1 := consumeStep now state p1 st
      runTwo now state rest (s1.1, p2, s1.2)
    else
      let s2 := consumeStep now state p2 st
      runTwo now state rest (p1, s2.1, s2.2)

/-! ## Token lifecycle manager (`tokens/manager.py`)

The Google client (`oauth/google.py`) is HTTP; its refresh endpoint is a
parameter `refresh : String → Except TokenError TokenResponse`.  Per
`google.py`, a provider `invalid_grant` response surfaces as `TokenError`
with code `"token_revoked"`, any network failure or other non-200 response
as code `"refresh_failed"`.  Fresh encryption nonces are explicit
arguments.  Alongside its result each operation returns the number of
provider refresh calls it made, the observable claim C5 speaks about.
-/

/-- `google.TokenResponse`. -/
structure TokenResponse where
  access_token : String
  refresh_token : Option String
  expires_at : Nat
  token_type : String
  scope : String
deriving DecidableEq

/-- `google.UserInfo`. -/
structure UserInfo where
  email : String
  verified_email : Bool
deriving DecidableEq

/-- `tokens.manager.ValidToken`. -/
structure ValidToken where
  access_token : String
  expires_at : Nat
  connection_id : String
  gmail_address : String
deriving DecidableEq

/-- The typed errors `TokenManager` raises:
`ConnectionNotFoundError`, `ConnectionInactiveError`, `TokenError`. -/
inductive TMError where
  | connectionNotFound (connection_id : String)
  | connectionInactive (connection_id : String)
  | tokenError (e : TokenError)
deriving DecidableEq

namespace TokenManager

/-- `TokenManager._needs_refresh`:
`datetime.utcnow() + self._refresh_buffer >= connection.token_expires_at`. -/
def needsRefresh (now buffer : Nat) (c : Connection) : Bool :=
  decide (now + buffer ≥ c.token_expires_at)

/-- `TokenManager._refresh_token`: decrypt the stored refresh token
(failure → `TokenError("encryption_error")`); empty → 
`TokenError("needs_reauth")`; call the provider; on success encrypt the
new access token (and the new refresh token only if the provider issued
one), persist via `update_connection_tokens`, return the updated row; a
provider `TokenError` is re-raised; any other failure becomes
`TokenError("refresh_failed")`.  The second component counts provider
refresh calls. -/
def refreshTokenInternal (now : Nat) (key nonceA nonceR : List Nat)
    (refresh : String → Except TokenError TokenResponse)
    (st : Store) (c : Connection) :
    Except TokenError (Connection × Store) × Nat :=
  match TokenEncryption.decrypt key c.refresh_token_encrypted with
  | .error _ =>
    (.error ⟨"Failed to decrypt refresh token", "encryption_error"⟩, 0)
  | .ok refreshTok =>
    if refreshTok = "" then
      (.error ⟨"No refresh token available", "needs_reauth"⟩, 0)
    else
      match refresh refreshTok with
      | .error e => (.error e, 1)
      | .ok tr =>
        let accessEnc := TokenEncryption.encrypt key nonceA tr.access_token
        let refreshEnc : Option String :=
          match tr.refresh_token with
          | some r =>
            if r = "" then none else some (TokenEncryption.encrypt key nonceR r)
          | none => none
        match Storage.updateConnectionTokens now st c.id accessEnc
            refreshEnc tr.expires_at with
        | .ok (updated, st2) => (.ok (updated, st2), 1)
        | .error _ => (.error ⟨"Token refresh failed", "refresh_failed"⟩, 1)

/-- The tail of `get_valid_token` after the optional refresh: decrypt the
access token, touch `last_used_at`, return the `ValidToken`. -/
def finishValid (now : Nat) (key : List Nat) (st : Store) (cid : String)
    (c : Connection) (n : Nat) :
    Except TMError ValidToken × Store × Nat :=
  match TokenEncryption.decrypt key c.access_token_encrypted with
  | .error e => (.error (.tokenError e), st, n)
  | .ok tok =>
    (.ok ⟨tok, c.token_expires_at, c.id, c.gmail_address⟩,
      Storage.updateConnectionLastUsed now st cid, n)

/-- `TokenManager.get_valid_token`: load the connection (absent →
`ConnectionNotFoundError`; `is_active` false → `ConnectionInactiveError`);
refresh first when `_needs_refresh`; decrypt and return the token,
touching `last_used_at`. -/
def getValidToken (now buffer : Nat) (key nonceA nonceR : List Nat)
    (refresh : String → Except TokenError TokenResponse)
    (st : Store) (cid : String) :
    Except TMError ValidToken × Store × Nat :=
  match Storage.getConnection st cid with
  | none => (.error (.connectionNotFound cid), st, 0)
  | some c =>
    if c.is_active = false then
      (.error (.connectionInactive cid), st, 0)
    else if needsRefresh now buffer c then
      match refreshTokenInternal now key nonceA nonceR refresh st c with
      | (.error e, n) => (.error (.tokenError e), st, n)
      | (.ok (c2, st2), n) => finishValid now key st2 cid c2 n
    else
      finishValid now key st cid c 0

/-- `TokenManager.refresh_token`: force the refresh branch; load the
connection (absent → `ConnectionNotFoundError`), refresh unconditionally,
decrypt and return.  (There is no `is_active` check here.) -/
def refreshToken (now : Nat) (key nonceA nonceR : List Nat)
    (refresh : String → Except TokenError TokenResponse)
    (st : Store) (cid : String) :
    Except TMError ValidToken × Store × Nat :=
  match Storage.getConnection st cid with
  | none => (.error (.connectionNotFound cid), st, 0)
  | some c =>
    match refreshTokenInternal now key nonceA nonceR refresh st c with
    | (.error e, n) => (.error (.tokenError e), st, n)
    | (.ok (c2, st2), n) =>
      match TokenEncryption.decrypt key c2.access_token_encrypted with
      | .error e => (.error (.tokenError e), st2, n)
      | .ok tok =>
        (.ok ⟨tok, c2.token_expires_at, c2.id, c2.gmail_address⟩, st2, n)

/-- The sweep loop of `refresh_expiring_tokens`: try to refresh each
connection; on success collect its id; on any `TokenError` deactivate it. -/
def sweep (now : Nat) (key nonceA nonceR : List Nat)
    (refresh : String → Except TokenError TokenResponse) :
    List Connection → Store → List String × Store
  | [], st => ([], st)
  | c :: cs, st =>
    match refreshTokenInternal now key nonceA nonceR refresh st c with
    | (.ok (_, st2), _) =>
      let r := sweep now key nonceA nonceR refresh cs st2
      (c.id :: r.1, r.2)
    | (.error _, _) =>
      sweep now key nonceA nonceR refresh cs
        (Storage.deactivateConnection now st c.id)

/-- `TokenManager.refresh_expiring_tokens`: load the connections expiring
before `now + buffer` and sweep them. -/
def refreshExpiringTokens (now buffer : Nat) (key nonceA nonceR : List Nat)
    (refresh : String → Except TokenError TokenResponse) (st : Store) :
    List String × Store :=
  sweep now key nonceA nonceR refresh
    (Storage.getExpiringConnections st (now + buffer)) st

end TokenManager

/-! ## OAuth flow orchestrator (`oauth/manager.py`) -/

/-- `types.CallbackResult`. -/
structure CallbackResult where
  success : Bool
  connection_id : Option String := none
  user_id : Option String := none
  gmail_address : Option String := none
  error : Option String := none
deriving DecidableEq

namespace OAuthManager

/-- `OAuthManager.handle_callback`: consume the state (single-use);
exchange the code; fetch the account identity; encrypt both tokens (the
missing refresh token becomes `encrypt("")` via
`token_response.refresh_token or ""`); update the existing connection for
`(state.user_id, email)` in place, or create a new one; never raises —
every failure returns `success = false` with the error message.  The
provider calls (`exchange_code`, `get_user_info`) and the fresh id and
nonces are explicit arguments. -/
def handleCallback (now : Nat) (key nonceA nonceR : List Nat)
    (exchangeCode : String → String → String → Except AuthError TokenResponse)
    (getUserInfo : String → Except AuthError UserInfo)
    (newConnId : String) (st : Store) (code state : String) :
    CallbackResult × Store :=
  match OAuthStateManager.validateAndConsume now st state with
  | (.error e, st1) => (⟨false, none, none, none, some e.message⟩, st1)
  | (.ok oauthState, st1) =>
    match exchangeCode code oauthState.code_verifier
        oauthState.redirect_uri with
    | .error e => (⟨false, none, none, none, some e.message⟩, st1)
    | .ok tr =>
      match getUserInfo tr.access_token with
      | .error e => (⟨false, none, none, none, some e.message⟩, st1)
      | .ok ui =>
        let accessEnc := TokenEncryption.encrypt key nonceA tr.access_token
        let refreshEnc :=
          TokenEncryption.encrypt key nonceR (tr.refresh_token.getD "")
        match Storage.getConnectionByUserAndEmail st1 oauthState.user_id
            ui.email with
        | some existing =>
          match Storage.updateConnectionTokens now st1 existing.id accessEnc
              (some refreshEnc) tr.expires_at with
          | .ok (conn, st2) =>
            let extId := (Storage.getUserById st2 oauthState.user_id).map
              (fun u => u.external_user_id)
            (⟨true, some conn.id, extId, some ui.email, none⟩, st2)
          | .error e => (⟨false, none, none, none, some e.message⟩, st1)
        | none =>
          let cs := Storage.createConnection now st1 newConnId
            oauthState.user_id ui.email accessEnc refreshEnc tr.expires_at
            oauthState.scopes
          let extId := (Storage.getUserById cs.2 oauthState.user_id).map
            (fun u => u.external_user_id)
          (⟨true, some cs.1.id, extId, some ui.email, none⟩, cs.2)

end OAuthManager

/-! ## Shared storage lemmas -/

/-- `find?` by id over a map that preserves ids finds the mapped row. -/
theorem find?_map_id_preserving (l : List Connection)
    (upd : Connection → Connection) (hid : ∀ c, (upd c).id = c.id)
    (cid : String) :
    (l.map upd).find? (fun c => c.id = cid) =
      (l.find? (fun c => c.id = cid)).map upd := by
  induction l with
  | nil => rfl
  | cons c cs ih =>
    by_cases h : c.id = cid
    · rw [List.map_cons, List.find?_cons_of_pos _ (by simp [hid, h]),
        List.find?_cons_of_pos _ (by simp [h]), Option.map_some']
    · rw [List.map_cons, List.find?_cons_of_neg _ (by simp [hid, h]),
        List.find?_cons_of_neg _ (by simp [h]), ih]

theorem getConnection_map (st : Store) (upd : Connection → Connection)
    (hid : ∀ c, (upd c).id = c.id) (cid : String) :
    Storage.getConnection { st with connections := st.connections.map upd }
      cid = (Storage.getConnection st cid).map upd :=
  find?_map_id_preserving st.connections upd hid cid

theorem tokenRow_id (now : Nat) (cid accessEnc : String)
    (refreshEnc : Option String) (expiresAt : Nat) (c : Connection) :
    (Storage.tokenRow now cid accessEnc refreshEnc expiresAt c).id = c.id := by
  rw [Storage.tokenRow.eq_def]
  split <;> rfl

theorem deactivateRow_id (now : Nat) (cid : String) (c : Connection) :
    (Storage.deactivateRow now cid c).id = c.id := by
  rw [Storage.deactivateRow]
  split <;> rfl

theorem lastUsedRow_id (now : Nat) (cid : String) (c : Connection) :
    (Storage.lastUsedRow now cid c).id = c.id := by
  rw [Storage.lastUsedRow]
  split <;> rfl

theorem getConnection_eq_id {st : Store} {cid : String} {c : Connection}
    (h : Storage.getConnection st cid = some c) : c.id = cid := by
  have := List.find?_some h
  simpa using this

/-- A deactivation only changes the row with the matching id. -/
theorem getConnection_deactivate_other (now : Nat) (st : Store)
    (cid other : String) (hne : other ≠ cid) :
    Storage.getConnection (Storage.deactivateConnection now st cid) other =
      Storage.getConnection st other := by
  rw [Storage.deactivateConnection,
    getConnection_map _ _ (deactivateRow_id now cid)]
  cases h : Storage.getConnection st other with
  | none => rfl
  | some c =>
    rw [Option.map_some', Storage.deactivateRow,
      if_neg (by rw [getConnection_eq_id h]; exact hne)]

/-- The deactivated row: `is_active` false, `updated_at` stamped. -/
theorem getConnection_deactivate_self (now : Nat) (st : Store)
    (cid : String) (c : Connection)
    (h : Storage.getConnection st cid = some c) :
    Storage.getConnection (Storage.deactivateConnection now st cid) cid =
      some { c with is_active := false, updated_at := now } := by
  rw [Storage.deactivateConnection,
    getConnection_map _ _ (deactivateRow_id now cid), h, Option.map_some',
    Storage.deactivateRow, if_pos (getConnection_eq_id h)]

/-- `update_connection_tokens` when the row exists: the matching rows are
rewritten in place by `tokenRow`, nothing else changes, and the rewritten
row is returned. -/
theorem updateConnectionTokens_found (now : Nat) (st : Store)
    (cid : String) (c : Connection) (accessEnc : String)
    (refreshEnc : Option String) (expiresAt : Nat)
    (h : Storage.getConnection st cid = some c) :
    Storage.updateConnectionTokens now st cid accessEnc refreshEnc
        expiresAt =
      .ok (Storage.tokenRow now cid accessEnc refreshEnc expiresAt c,
        { st with connections := st.connections.map (Storage.tokenRow now
          cid accessEnc refreshEnc expiresAt) }) := by
  rw [Storage.updateConnectionTokens]
  rw [getConnection_map _ _ (tokenRow_id now cid accessEnc refreshEnc
    expiresAt), h, Option.map_some']

theorem getOAuthState_delete (st : Store) (s : String) :
    Storage.getOAuthState (Storage.deleteOAuthState st s) s = none := by
  rw [Storage.deleteOAuthState, Storage.getOAuthState]
  apply List.find?_eq_none.mpr
  intro os hos
  have h := (List.mem_filter.mp hos).2
  simpa using h

/-! ## The claims -/

/-- C1: a state record just issued by `create_state` and not yet expired
is returned by the first `validate_and_consume` call, which deletes it
from storage; a second `validate_and_consume` call with the same token —
at any later time — fails with `AuthError` code `"invalid_state"` and
leaves storage unchanged. -/
theorem c1_create_then_consume_single_use
    (now1 ttl now2 now3 : Nat) (st : Store)
    (stateId stateString codeVerifier userId redirectUri : String)
    (scopes : List String)
    (hlive : now2 ≤ now1 + ttl) :
    let created := OAuthStateManager.createState now1 ttl st stateId
      stateString codeVerifier userId scopes redirectUri
    let first := OAuthStateManager.validateAndConsume now2 created.2
      stateString
    let second := OAuthStateManager.validateAndConsume now3 first.2
      stateString
    first.1 = .ok created.1 ∧
    Storage.getOAuthState first.2 stateString = none ∧
    second.1 = .error ⟨"Invalid OAuth state parameter", "invalid_state"⟩ ∧
    second.2 = first.2 := by
  intro created first second
  have hos : created.1 = ⟨stateId, stateString, userId, scopes, redirectUri,
      codeVerifier, now1 + ttl, now1⟩ := rfl
  have hst : created.2 = Storage.createOAuthState st created.1 := rfl
  have hget : Storage.getOAuthState created.2 stateString = some created.1 := by
    rw [hst, Storage.createOAuthState, Storage.getOAuthState]
    exact List.find?_cons_of_pos _ (by rw [hos]; simp)
  have hexp : created.1.isExpired now2 = false := by
    rw [hos, OAuthState.isExpired]
    simp only [decide_eq_false_iff_not, not_lt]
    omega
  have hfirst : first = (.ok created.1,
      Storage.deleteOAuthState created.2 stateString) := by
    show OAuthStateManager.validateAndConsume now2 created.2 stateString = _
    rw [OAuthStateManager.validateAndConsume, hget]
    simp only [hexp, Bool.false_eq_true, if_false]
  have hnone : Storage.getOAuthState first.2 stateString = none := by
    rw [hfirst]
    exact getOAuthState_delete created.2 stateString
  refine ⟨by rw [hfirst], hnone, ?_, ?_⟩
  · show (OAuthStateManager.validateAndConsume now3 first.2 stateString).1 = _
    rw [OAuthStateManager.validateAndConsume, hnone]
  · show (OAuthStateManager.validateAndConsume now3 first.2 stateString).2 = _
    rw [OAuthStateManager.validateAndConsume, hnone]

/-- Witness for C1 at a concrete state store and timeline. -/
theorem c1_create_then_consume_single_use_witness :
    (300 : Nat) ≤ 0 + 600 ∧
    (let created := OAuthStateManager.createState 0 600 ⟨[], [], []⟩ "sid"
      "tok" "ver" "u1" ["scope"] "uri"
     let first := OAuthStateManager.validateAndConsume 300 created.2 "tok"
     let second := OAuthStateManager.validateAndConsume 400 first.2 "tok"
     first.1 = .ok created.1 ∧
     Storage.getOAuthState first.2 "tok" = none ∧
     second.1 = .error ⟨"Invalid OAuth state parameter", "invalid_state"⟩ ∧
     second.2 = first.2) :=
  ⟨by omega, c1_create_then_consume_single_use 0 600 300 400 ⟨[], [], []⟩
    "sid" "tok" "ver" "u1" "uri" ["scope"] (by omega)⟩

/-- C3: the interleaving read₁, read₂, delete₁, delete₂ of two concurrent
`validate_and_consume` calls on the same live token makes BOTH calls
succeed — `validate_and_consume` is a plain read-then-delete
(`get_oauth_state`, then an unconditional `delete_oauth_state` that
reports nothing), not an atomic delete-and-return-if-existed, so two
concurrent invocations do not always yield exactly one success and one
`InvalidState` failure. -/
theorem c3_interleaved_consume_two_successes :
    runTwo 50 "tok" [true, false, true, false]
      (ConsumePC.start, ConsumePC.start,
        ⟨[], [], [⟨"sid", "tok", "u1", ["scope"], "uri", "ver", 100, 0⟩]⟩) =
      (ConsumePC.done (.ok ⟨"sid", "tok", "u1", ["scope"], "uri", "ver",
          100, 0⟩),
        ConsumePC.done (.ok ⟨"sid", "tok", "u1", ["scope"], "uri", "ver",
          100, 0⟩),
        ⟨[], [], []⟩) := by
  rfl

/-- C7: decrypting an encryption returns the original plaintext under the
same key, for every string — empty, huge, with newlines or non-ASCII
Unicode alike (the fresh random nonce drawn inside `encrypt` is the
explicit 16-byte `nonce` argument). -/
theorem c7_decrypt_encrypt_roundtrip (key nonce : List Nat) (s : String)
    (hn : nonce.length = 16) (hnb : ∀ b ∈ nonce, b < 256) :
    TokenEncryption.decrypt key (TokenEncryption.encrypt key nonce s) =
      Except.ok s :=
  TokenEncryption.decrypt_encrypt key nonce s hn hnb

/-- Witness for C7 with a plaintext holding a newline and non-ASCII
characters. -/
theorem c7_decrypt_encrypt_roundtrip_witness :
    (List.replicate 16 7).length = 16 ∧
    (∀ b ∈ List.replicate 16 7, b < 256) ∧
    TokenEncryption.decrypt [1, 2, 3] (TokenEncryption.encrypt [1, 2, 3]
      (List.replicate 16 7) "tok\nén€") = Except.ok "tok\nén€" :=
  ⟨by decide, by decide,
    c7_decrypt_encrypt_roundtrip [1, 2, 3] (List.replicate 16 7) "tok\nén€"
      (by decide) (by decide)⟩

theorem build_ok_fields {v : String} {q : PKCE.Pair}
    (h : PKCE.build v = .ok q) :
    q.code_verifier = v ∧
    q.code_challenge = String.mk (B64.encode (SHA256.sha256
      (v.data.map Char.toNat))) := by
  rw [PKCE.build] at h
  cases hv : PKCE.validateVerifier v with
  | error e =>
    rw [hv] at h
    simp [Bind.bind, Except.bind] at h
  | ok u =>
    rw [hv] at h
    simp only [Bind.bind, Except.bind] at h
    rw [PKCE.computeChallenge] at h
    by_cases ha : v.data.all (fun c => decide (c.toNat < 128))
    · rw [if_pos ha] at h
      simp only [Except.pure, Except.ok.injEq, Pure.pure] at h
      rw [← h]
      exact ⟨rfl, rfl⟩
    · rw [if_neg ha] at h
      simp at h

/-- C8: `PKCE.generate` rejects every length outside `[43, 128]` with a
`ValueError`; for a length in range it yields a verifier of exactly that
length drawn from the RFC 7636 unreserved charset, whose challenge is
`base64url(SHA256(verifier))` with the padding removed — and the same
verifier always rebuilds the same challenge. -/
theorem c8_pkce_generate (L : Nat) (rand : List Nat)
    (h1 : 43 ≤ L) (h2 : L ≤ 128)
    (hr : rand.length = (L * 6 + 7) / 8) (hb : ∀ b ∈ rand, b < 256) :
    (∀ (L2 : Nat) (rand2 : List Nat), L2 < 43 ∨ 128 < L2 →
      PKCE.generate rand2 L2 =
        .error "Verifier length must be between 43 and 128") ∧
    ∃ p, PKCE.generate rand L = .ok p ∧
      p.code_verifier.length = L ∧
      (∀ c ∈ p.code_verifier.data, c ∈ PKCE.allowedChars) ∧
      p.code_challenge = String.mk (B64.encode (SHA256.sha256
        (p.code_verifier.data.map Char.toNat))) ∧
      ∀ q, PKCE.build p.code_verifier = .ok q →
        q.code_challenge = p.code_challenge := by
  constructor
  · intro L2 rand2 hout
    rw [PKCE.generate, if_pos (by
      simp only [PKCE.MIN_VERIFIER_LENGTH, PKCE.MAX_VERIFIER_LENGTH]
      omega)]
  · refine ⟨⟨PKCE.generateVerifier rand L,
      String.mk (B64.encode (SHA256.sha256
        ((PKCE.generateVerifier rand L).data.map Char.toNat)))⟩,
      ?_, ?_, ?_, rfl, ?_⟩
    · rw [PKCE.generate, if_neg (by
        simp only [PKCE.MIN_VERIFIER_LENGTH, PKCE.MAX_VERIFIER_LENGTH]
        omega)]
      exact PKCE.build_generateVerifier rand L h1 h2 hr hb
    · exact PKCE.generateVerifier_length rand L hr
    · exact PKCE.generateVerifier_chars rand L hb
    · intro q hq
      exact (build_ok_fields hq).2

/-- Witness for C8 at the default length 64 with 48 concrete random
bytes. -/
theorem c8_pkce_generate_witness :
    (43 ≤ 64 ∧ 64 ≤ 128 ∧ (List.range 48).length = (64 * 6 + 7) / 8 ∧
      (∀ b ∈ List.range 48, b < 256)) ∧
    ((∀ (L2 : Nat) (rand2 : List Nat), L2 < 43 ∨ 128 < L2 →
      PKCE.generate rand2 L2 =
        .error "Verifier length must be between 43 and 128") ∧
    ∃ p, PKCE.generate (List.range 48) 64 = .ok p ∧
      p.code_verifier.length = 64 ∧
      (∀ c ∈ p.code_verifier.data, c ∈ PKCE.allowedChars) ∧
      p.code_challenge = String.mk (B64.encode (SHA256.sha256
        (p.code_verifier.data.map Char.toNat))) ∧
      ∀ q, PKCE.build p.code_verifier = .ok q →
        q.code_challenge = p.code_challenge) :=
  ⟨⟨by omega, by omega, by decide, by decide⟩,
    c8_pkce_generate 64 (List.range 48) (by omega) (by omega) (by decide)
      (by decide)⟩

/-! ## Classification lemmas for the refresh procedure -/

theorem refreshTokenInternal_err_decrypt (now : Nat)
    (key nonceA nonceR : List Nat)
    (refresh : String → Except TokenError TokenResponse)
    (st : Store) (c : Connection) (e : TokenError)
    (hdec : TokenEncryption.decrypt key c.refresh_token_encrypted =
      .error e) :
    TokenManager.refreshTokenInternal now key nonceA nonceR refresh st c =
      (.error ⟨"Failed to decrypt refresh token", "encryption_error"⟩, 0) := by
  rw [TokenManager.refreshTokenInternal, hdec]

theorem refreshTokenInternal_err_empty (now : Nat)
    (key nonceA nonceR : List Nat)
    (refresh : String → Except TokenError TokenResponse)
    (st : Store) (c : Connection)
    (hdec : TokenEncryption.decrypt key c.refresh_token_encrypted =
      .ok "") :
    TokenManager.refreshTokenInternal now key nonceA nonceR refresh st c =
      (.error ⟨"No refresh token available", "needs_reauth"⟩, 0) := by
  rw [TokenManager.refreshTokenInternal, hdec]
  simp only [if_true]

theorem refreshTokenInternal_err_provider (now : Nat)
    (key nonceA nonceR : List Nat)
    (refresh : String → Except TokenError TokenResponse)
    (st : Store) (c : Connection) (rt : String) (e : TokenError)
    (hdec : TokenEncryption.decrypt key c.refresh_token_encrypted =
      .ok rt)
    (hrt : rt ≠ "") (href : refresh rt = .error e) :
    TokenManager.refreshTokenInternal now key nonceA nonceR refresh st c =
      (.error e, 1) := by
  rw [TokenManager.refreshTokenInternal, hdec]
  simp only
  rw [if_neg hrt, href]

theorem refreshTokenInternal_ok (now : Nat) (key nonceA nonceR : List Nat)
    (refresh : String → Except TokenError TokenResponse)
    (st : Store) (c : Connection) (rt : String) (tr : TokenResponse)
    (hdec : TokenEncryption.decrypt key c.refresh_token_encrypted =
      .ok rt)
    (hrt : rt ≠ "") (href : refresh rt = .ok tr)
    (hid : Storage.getConnection st c.id = some c) :
    TokenManager.refreshTokenInternal now key nonceA nonceR refresh st c =
      (.ok (Storage.tokenRow now c.id
          (TokenEncryption.encrypt key nonceA tr.access_token)
          (match tr.refresh_token with
           | some r => if r = "" then none
                       else some (TokenEncryption.encrypt key nonceR r)
           | none => none)
          tr.expires_at c,
        { st with connections := st.connections.map (Storage.tokenRow now
          c.id (TokenEncryption.encrypt key nonceA tr.access_token)
          (match tr.refresh_token with
           | some r => if r = "" then none
                       else some (TokenEncryption.encrypt key nonceR r)
           | none => none)
          tr.expires_at) }), 1) := by
  rw [TokenManager.refreshTokenInternal, hdec]
  simp only
  rw [if_neg hrt, href]
  simp only
  rw [updateConnectionTokens_found now st c.id c _ _ _ hid]

theorem finishValid_calls (now : Nat) (key : List Nat) (st : Store)
    (cid : String) (c : Connection) (n : Nat) :
    (TokenManager.finishValid now key st cid c n).2.2 = n := by
  rw [TokenManager.finishValid]
  cases TokenEncryption.decrypt key c.access_token_encrypted <;> rfl

theorem refreshTokenInternal_calls (now : Nat)
    (key nonceA nonceR : List Nat)
    (refresh : String → Except TokenError TokenResponse)
    (st : Store) (c : Connection) (rt : String)
    (hdec : TokenEncryption.decrypt key c.refresh_token_encrypted =
      .ok rt)
    (hrt : rt ≠ "") :
    (TokenManager.refreshTokenInternal now key nonceA nonceR refresh
      st c).2 = 1 := by
  rw [TokenManager.refreshTokenInternal, hdec]
  simp only
  rw [if_neg hrt]
  cases refresh rt with
  | error e => rfl
  | ok tr =>
    simp only
    cases Storage.updateConnectionTokens now st c.id
        (TokenEncryption.encrypt key nonceA tr.access_token)
        (match tr.refresh_token with
         | some r => if r = "" then none
                     else some (TokenEncryption.encrypt key nonceR r)
         | none => none)
        tr.expires_at with
    | ok p => rfl
    | error e => rfl

/-- C5: for an active connection whose stored refresh token decrypts to a
non-empty value (so that a refresh attempt reaches the provider),
`get_valid_token` calls the provider refresh endpoint exactly once when
`now + refresh_buffer ≥ token_expires_at` and exactly zero times
otherwise. -/
theorem c5_get_valid_token_refresh_iff (now buffer : Nat)
    (key nonceA nonceR : List Nat)
    (refresh : String → Except TokenError TokenResponse)
    (st : Store) (cid : String) (c : Connection) (rt : String)
    (hc : Storage.getConnection st cid = some c)
    (hactive : c.is_active = true)
    (hdec : TokenEncryption.decrypt key c.refresh_token_encrypted =
      .ok rt)
    (hrt : rt ≠ "") :
    (TokenManager.getValidToken now buffer key nonceA nonceR refresh st
      cid).2.2 =
      if now + buffer ≥ c.token_expires_at then 1 else 0 := by
  rw [TokenManager.getValidToken, hc]
  simp only [hactive]
  rw [if_neg (by simp)]
  by_cases hnr : now + buffer ≥ c.token_expires_at
  · rw [if_pos hnr]
    have hb : TokenManager.needsRefresh now buffer c = true := by
      rw [TokenManager.needsRefresh]
      exact decide_eq_true hnr
    rw [if_pos hb]
    rcases hri : TokenManager.refreshTokenInternal now key nonceA nonceR
        refresh st c with ⟨res, n⟩
    have hn : n = 1 := by
      have := refreshTokenInternal_calls now key nonceA nonceR refresh st
        c rt hdec hrt
      rw [hri] at this
      exact this
    cases res with
    | error e => simp [hn]
    | ok p =>
      rcases p with ⟨c2, st2⟩
      simp only
      rw [finishValid_calls, hn]
  · rw [if_neg hnr]
    have hb : TokenManager.needsRefresh now buffer c = false := by
      rw [TokenManager.needsRefresh]
      exact decide_eq_false hnr
    rw [if_neg (by simp [hb])]
    rw [finishValid_calls]

/-- Witness for C5: a token expiring in 2 minutes under a 5-minute buffer
is refreshed exactly once. -/
theorem c5_get_valid_token_refresh_iff_witness :
    (Storage.getConnection
        ⟨[], [⟨"c1", "u1", "a@gmail.test",
          TokenEncryption.encrypt [] (List.replicate 16 0) "AT",
          TokenEncryption.encrypt [] (List.replicate 16 0) "RT",
          1120, [], true, 0, 0, none⟩], []⟩ "c1" =
      some ⟨"c1", "u1", "a@gmail.test",
        TokenEncryption.encrypt [] (List.replicate 16 0) "AT",
        TokenEncryption.encrypt [] (List.replicate 16 0) "RT",
        1120, [], true, 0, 0, none⟩) ∧
    TokenEncryption.decrypt [] (TokenEncryption.encrypt []
      (List.replicate 16 0) "RT") = .ok "RT" ∧
    ("RT" : String) ≠ "" ∧
    (TokenManager.getValidToken 1000 300 [] (List.replicate 16 0)
      (List.replicate 16 0)
      (fun _ => .ok ⟨"AT2", none, 9999, "Bearer", ""⟩)
      ⟨[], [⟨"c1", "u1", "a@gmail.test",
        TokenEncryption.encrypt [] (List.replicate 16 0) "AT",
        TokenEncryption.encrypt [] (List.replicate 16 0) "RT",
        1120, [], true, 0, 0, none⟩], []⟩ "c1").2.2 =
      if 1000 + 300 ≥ 1120 then 1 else 0 :=
  ⟨rfl,
    TokenEncryption.decrypt_encrypt [] (List.replicate 16 0) "RT"
      (by decide) (by decide),
    by decide,
    c5_get_valid_token_refresh_iff 1000 300 [] (List.replicate 16 0)
      (List.replicate 16 0) (fun _ => .ok ⟨"AT2", none, 9999, "Bearer", ""⟩)
      ⟨[], [⟨"c1", "u1", "a@gmail.test",
        TokenEncryption.encrypt [] (List.replicate 16 0) "AT",
        TokenEncryption.encrypt [] (List.replicate 16 0) "RT",
        1120, [], true, 0, 0, none⟩], []⟩ "c1"
      ⟨"c1", "u1", "a@gmail.test",
        TokenEncryption.encrypt [] (List.replicate 16 0) "AT",
        TokenEncryption.encrypt [] (List.replicate 16 0) "RT",
        1120, [], true, 0, 0, none⟩ "RT" rfl rfl
      (TokenEncryption.decrypt_encrypt [] (List.replicate 16 0) "RT"
        (by decide) (by decide))
      (by decide)⟩

/-- C6 counterexample: a stored connection with `is_active = false` does
NOT make `refresh_token(connection_id)` fail with `ConnectionInactive` —
with a working provider the forced refresh succeeds and returns a token,
because `refresh_token` never checks `is_active`. -/
theorem c6_counterexample :
    (TokenManager.refreshToken 50 [] (List.replicate 16 0)
      (List.replicate 16 0)
      (fun _ => .ok ⟨"AT2", none, 200, "Bearer", ""⟩)
      ⟨[], [⟨"c1", "u1", "a@gmail.test",
        TokenEncryption.encrypt [] (List.replicate 16 0) "AT",
        TokenEncryption.encrypt [] (List.replicate 16 0) "RT",
        100, [], false, 0, 0, none⟩], []⟩ "c1").1 =
      Except.ok ⟨"AT2", 200, "c1", "a@gmail.test"⟩ := by
  rfl

/-- C6 amended: `refresh_token(connection_id)` fails with
`ConnectionNotFound` for every id with no stored connection, but —
unlike `get_valid_token` — it performs no `is_active` check: no input
whatsoever makes it fail with `ConnectionInactive`; an inactive
connection proceeds through the forced refresh like an active one. -/
theorem c6_refresh_token_error_surface (now : Nat)
    (key nonceA nonceR : List Nat)
    (refresh : String → Except TokenError TokenResponse)
    (st : Store) (cid : String) :
    (Storage.getConnection st cid = none →
      (TokenManager.refreshToken now key nonceA nonceR refresh st cid).1 =
        .error (.connectionNotFound cid)) ∧
    ∀ cid2,
      (TokenManager.refreshToken now key nonceA nonceR refresh st
        cid).1 ≠ .error (.connectionInactive cid2) := by
  constructor
  · intro h
    rw [TokenManager.refreshToken, h]
  · intro cid2
    rw [TokenManager.refreshToken]
    cases hc : Storage.getConnection st cid with
    | none => simp
    | some c =>
      simp only
      rcases hri : TokenManager.refreshTokenInternal now key nonceA nonceR
          refresh st c with ⟨res, n⟩
      cases res with
      | error e => simp
      | ok p =>
        rcases p with ⟨c2, st2⟩
        simp only
        cases TokenEncryption.decrypt key c2.access_token_encrypted with
        | error e => simp
        | ok tok => simp

/-- C2 counterexample: a connection whose refresh attempt fails with the
transient, retriable `TokenError("refresh_failed")` (the code
`google.py` raises for a network failure) is deactivated by
`refresh_expiring_tokens` all the same — the sweep catches every
`TokenError` and deactivates, so a transient failure does not leave the
connection active. -/
theorem c2_counterexample :
    TokenManager.refreshExpiringTokens 1000 300 [] (List.replicate 16 0)
      (List.replicate 16 0)
      (fun _ => .error ⟨"Failed to connect to Google OAuth",
        "refresh_failed"⟩)
      ⟨[], [⟨"c1", "u1", "a@gmail.test",
        TokenEncryption.encrypt [] (List.replicate 16 0) "AT",
        TokenEncryption.encrypt [] (List.replicate 16 0) "RT",
        1100, [], true, 0, 0, none⟩], []⟩ =
      ([], ⟨[], [⟨"c1", "u1", "a@gmail.test",
        TokenEncryption.encrypt [] (List.replicate 16 0) "AT",
        TokenEncryption.encrypt [] (List.replicate 16 0) "RT",
        1100, [], false, 0, 1000, none⟩], []⟩) := by
  rfl

/-- Whether the refresh attempt for a snapshot connection reaches the
provider and succeeds (decryptable, non-empty refresh token, provider
success). -/
def refreshAttemptOk (key : List Nat)
    (refresh : String → Except TokenError TokenResponse)
    (c : Connection) : Bool :=
  match TokenEncryption.decrypt key c.refresh_token_encrypted with
  | .error _ => false
  | .ok rt =>
    if rt = "" then false
    else
      match refresh rt with
      | .ok _ => true
      | .error _ => false

theorem tokenRow_other (now : Nat) (cid accessEnc : String)
    (refreshEnc : Option String) (expiresAt : Nat) (c : Connection)
    (h : c.id ≠ cid) :
    Storage.tokenRow now cid accessEnc refreshEnc expiresAt c = c := by
  rw [Storage.tokenRow.eq_def, if_neg h]

theorem deactivateRow_other (now : Nat) (cid : String) (c : Connection)
    (h : c.id ≠ cid) : Storage.deactivateRow now cid c = c := by
  rw [Storage.deactivateRow, if_neg h]

theorem tokenRow_is_active (now : Nat) (cid accessEnc : String)
    (refreshEnc : Option String) (expiresAt : Nat) (c : Connection) :
    (Storage.tokenRow now cid accessEnc refreshEnc expiresAt c).is_active =
      c.is_active := by
  rw [Storage.tokenRow.eq_def]
  split <;> rfl

/-- A token update only changes the rows with the matching id. -/
theorem getConnection_tokenRow_other (now : Nat) (st : Store)
    (cid accessEnc : String) (refreshEnc : Option String)
    (expiresAt : Nat) (other : String) (hne : other ≠ cid) :
    Storage.getConnection { st with
      connections := st.connections.map (Storage.tokenRow now cid
        accessEnc refreshEnc expiresAt) } other =
      Storage.getConnection st other := by
  rw [getConnection_map _ _ (tokenRow_id now cid accessEnc refreshEnc
    expiresAt)]
  cases h : Storage.getConnection st other with
  | none => rfl
  | some c =>
    rw [Option.map_some',
      tokenRow_other _ _ _ _ _ _ (by rw [getConnection_eq_id h]; exact hne)]

/-- When the internal refresh succeeds, the new store is a token-row map
of the old one over the connection id. -/
theorem refreshTokenInternal_ok_store (now : Nat)
    (key nonceA nonceR : List Nat)
    (refresh : String → Except TokenError TokenResponse)
    (st : Store) (c c2 : Connection) (st2 : Store) (n : Nat)
    (h : TokenManager.refreshTokenInternal now key nonceA nonceR refresh
      st c = (.ok (c2, st2), n)) :
    ∃ accessEnc refreshEnc expiresAt,
      st2 = { st with connections := st.connections.map (Storage.tokenRow
        now c.id accessEnc refreshEnc expiresAt) } := by
  rw [TokenManager.refreshTokenInternal] at h
  cases hdec : TokenEncryption.decrypt key c.refresh_token_encrypted with
  | error e => rw [hdec] at h; simp at h
  | ok rt =>
    rw [hdec] at h
    simp only at h
    by_cases hrt : rt = ""
    · rw [if_pos hrt] at h
      simp at h
    · rw [if_neg hrt] at h
      cases href : refresh rt with
      | error e => rw [href] at h; simp at h
      | ok tr =>
        rw [href] at h
        simp only at h
        rw [Storage.updateConnectionTokens] at h
        cases hget : Storage.getConnection { st with
            connections := st.connections.map (Storage.tokenRow now c.id
              (TokenEncryption.encrypt key nonceA tr.access_token)
              (match tr.refresh_token with
               | some r => if r = "" then none
                           else some (TokenEncryption.encrypt key nonceR r)
               | none => none)
              tr.expires_at) } c.id with
        | none => rw [hget] at h; simp at h
        | some c3 =>
          rw [hget] at h
          simp only [Prod.mk.injEq, Except.ok.injEq] at h
          refine ⟨TokenEncryption.encrypt key nonceA tr.access_token,
            (match tr.refresh_token with
             | some r => if r = "" then none
                         else some (TokenEncryption.encrypt key nonceR r)
             | none => none),
            tr.expires_at, ?_⟩
          rw [← h.1.2]

/-- The sweep leaves every row whose id is not in the processed list
untouched. -/
theorem sweep_frame (now : Nat) (key nonceA nonceR : List Nat)
    (refresh : String → Except TokenError TokenResponse) :
    ∀ (cs : List Connection) (st : Store) (cid : String),
    cid ∉ cs.map (fun c => c.id) →
    Storage.getConnection
      (TokenManager.sweep now key nonceA nonceR refresh cs st).2 cid =
      Storage.getConnection st cid := by
  intro cs
  induction cs with
  | nil => intro st cid _; rfl
  | cons c rest ih =>
    intro st cid hnot
    have hne : cid ≠ c.id := by
      intro h
      exact hnot (by rw [List.map_cons, h]; exact List.mem_cons_self _ _)
    have hrest : cid ∉ rest.map (fun c => c.id) := by
      intro h
      exact hnot (by rw [List.map_cons]; exact List.mem_cons_of_mem _ h)
    rw [TokenManager.sweep]
    rcases hri : TokenManager.refreshTokenInternal now key nonceA nonceR
        refresh st c with ⟨res, n⟩
    cases res with
    | ok p =>
      rcases p with ⟨c2, st2⟩
      simp only
      rw [ih st2 cid hrest]
      obtain ⟨accessEnc, refreshEnc, expiresAt, hshape⟩ :=
        refreshTokenInternal_ok_store now key nonceA nonceR refresh st c
          c2 st2 n hri
      rw [hshape,
        getConnection_tokenRow_other now st c.id accessEnc refreshEnc
          expiresAt cid hne]
    | error e =>
      simp only
      rw [ih _ cid hrest, getConnection_deactivate_other now st c.id cid hne]

theorem refreshAttemptOk_inv {key : List Nat}
    {refresh : String → Except TokenError TokenResponse} {c : Connection}
    (h : refreshAttemptOk key refresh c = true) :
    ∃ rt tr, TokenEncryption.decrypt key c.refresh_token_encrypted =
        .ok rt ∧ rt ≠ "" ∧ refresh rt = .ok tr := by
  rw [refreshAttemptOk] at h
  cases hdec : TokenEncryption.decrypt key c.refresh_token_encrypted with
  | error e => rw [hdec] at h; simp at h
  | ok rt =>
    rw [hdec] at h
    simp only at h
    by_cases hrt : rt = ""
    · rw [if_pos hrt] at h; simp at h
    · rw [if_neg hrt] at h
      cases href : refresh rt with
      | error e => rw [href] at h; simp at h
      | ok tr => exact ⟨rt, tr, rfl, hrt, href⟩

theorem refreshTokenInternal_err_of_not_ok (now : Nat)
    (key nonceA nonceR : List Nat)
    (refresh : String → Except TokenError TokenResponse)
    (st : Store) (c : Connection)
    (h : refreshAttemptOk key refresh c = false) :
    ∃ e n, TokenManager.refreshTokenInternal now key nonceA nonceR refresh
      st c = (.error e, n) := by
  rw [refreshAttemptOk] at h
  cases hdec : TokenEncryption.decrypt key c.refresh_token_encrypted with
  | error e =>
    exact ⟨_, _, refreshTokenInternal_err_decrypt now key nonceA nonceR
      refresh st c e hdec⟩
  | ok rt =>
    rw [hdec] at h
    simp only at h
    by_cases hrt : rt = ""
    · subst hrt
      exact ⟨_, _, refreshTokenInternal_err_empty now key nonceA nonceR
        refresh st c hdec⟩
    · rw [if_neg hrt] at h
      cases href : refresh rt with
      | error e =>
        exact ⟨_, _, refreshTokenInternal_err_provider now key nonceA
          nonceR refresh st c rt e hdec hrt href⟩
      | ok tr => rw [href] at h; simp at h

/-- With id-unique rows, a stored connection is found by its id. -/
theorem getConnection_of_mem_nodup {st : Store} {c : Connection}
    (hmem : c ∈ st.connections)
    (hnd : (st.connections.map (fun c => c.id)).Nodup) :
    Storage.getConnection st c.id = some c := by
  rcases st with ⟨us, conns, oss⟩
  rw [Storage.getConnection]
  simp only at hmem hnd ⊢
  induction conns with
  | nil => simp at hmem
  | cons c0 rest ih =>
    rw [List.map_cons, List.nodup_cons] at hnd
    rcases List.mem_cons.mp hmem with rfl | hmem2
    · exact List.find?_cons_of_pos _ (by simp)
    · have hne : c0.id ≠ c.id := by
        intro h
        exact hnd.1 (h ▸ List.mem_map_of_mem (fun c => c.id) hmem2)
      rw [List.find?_cons_of_neg _ (by simp [hne])]
      exact ih hmem2 hnd.2

/-- The sweep returns exactly the ids of the snapshot connections whose
refresh attempt succeeds, deactivates every other one (stamping
`updated_at`), and leaves `is_active` of the successful ones unchanged. -/
theorem sweep_spec (now : Nat) (key nonceA nonceR : List Nat)
    (refresh : String → Except TokenError TokenResponse) :
    ∀ (cs : List Connection) (st : Store),
    (∀ c ∈ cs, Storage.getConnection st c.id = some c) →
    (cs.map (fun c => c.id)).Nodup →
    (TokenManager.sweep now key nonceA nonceR refresh cs st).1 =
      (cs.filter (refreshAttemptOk key refresh)).map (fun c => c.id) ∧
    (∀ c ∈ cs, refreshAttemptOk key refresh c = false →
      Storage.getConnection
        (TokenManager.sweep now key nonceA nonceR refresh cs st).2 c.id =
        some { c with is_active := false, updated_at := now }) ∧
    (∀ c ∈ cs, refreshAttemptOk key refresh c = true →
      ∃ row, Storage.getConnection
        (TokenManager.sweep now key nonceA nonceR refresh cs st).2 c.id =
        some row ∧ row.is_active = c.is_active) := by
  intro cs
  induction cs with
  | nil =>
    intro st _ _
    exact ⟨rfl, by simp, by simp⟩
  | cons c rest ih =>
    intro st hpres hnd
    rw [List.map_cons, List.nodup_cons] at hnd
    have hcid : c.id ∉ rest.map (fun c => c.id) := hnd.1
    have hpc : Storage.getConnection st c.id = some c :=
      hpres c (List.mem_cons_self _ _)
    by_cases hok : refreshAttemptOk key refresh c = true
    · obtain ⟨rt, tr, hdec, hrt, href⟩ := refreshAttemptOk_inv hok
      have hint := refreshTokenInternal_ok now key nonceA nonceR refresh
        st c rt tr hdec hrt href hpc
      rw [TokenManager.sweep, hint]
      simp only
      have hpres2 : ∀ c2 ∈ rest, Storage.getConnection
          { st with connections := st.connections.map (Storage.tokenRow
            now c.id (TokenEncryption.encrypt key nonceA tr.access_token)
            (match tr.refresh_token with
             | some r => if r = "" then none
                         else some (TokenEncryption.encrypt key nonceR r)
             | none => none)
            tr.expires_at) } c2.id = some c2 := by
        intro c2 hc2
        have hne : c2.id ≠ c.id := fun h =>
          hcid (h ▸ List.mem_map_of_mem _ hc2)
        rw [getConnection_tokenRow_other now st c.id _ _ _ c2.id hne]
        exact hpres c2 (List.mem_cons_of_mem _ hc2)
      obtain ⟨hids, hfail, hsucc⟩ := ih _ hpres2 hnd.2
      refine ⟨?_, ?_, ?_⟩
      · rw [hids, List.filter_cons_of_pos hok, List.map_cons]
      · intro c2 hc2 hf
        rcases List.mem_cons.mp hc2 with rfl | hc2b
        · rw [hok] at hf
          exact absurd hf (by simp)
        · exact hfail c2 hc2b hf
      · intro c2 hc2 ht
        rcases List.mem_cons.mp hc2 with rfl | hc2b
        · refine ⟨Storage.tokenRow now c2.id
            (TokenEncryption.encrypt key nonceA tr.access_token)
            (match tr.refresh_token with
             | some r => if r = "" then none
                         else some (TokenEncryption.encrypt key nonceR r)
             | none => none)
            tr.expires_at c2, ?_, tokenRow_is_active _ _ _ _ _ _⟩
          rw [sweep_frame now key nonceA nonceR refresh rest _ c2.id hcid,
            getConnection_map _ _ (tokenRow_id now c2.id _ _ _), hpc,
            Option.map_some']
        · exact hsucc c2 hc2b ht
    · have hok2 : refreshAttemptOk key refresh c = false := by
        revert hok
        cases refreshAttemptOk key refresh c <;> simp
      obtain ⟨e, n, hint⟩ := refreshTokenInternal_err_of_not_ok now key
        nonceA nonceR refresh st c hok2
      rw [TokenManager.sweep, hint]
      simp only
      have hpres2 : ∀ c2 ∈ rest, Storage.getConnection
          (Storage.deactivateConnection now st c.id) c2.id = some c2 := by
        intro c2 hc2
        have hne : c2.id ≠ c.id := fun h =>
          hcid (h ▸ List.mem_map_of_mem _ hc2)
        rw [getConnection_deactivate_other now st c.id c2.id hne]
        exact hpres c2 (List.mem_cons_of_mem _ hc2)
      obtain ⟨hids, hfail, hsucc⟩ := ih _ hpres2 hnd.2
      refine ⟨?_, ?_, ?_⟩
      · rw [hids, List.filter_cons_of_neg (by simp [hok2])]
      · intro c2 hc2 hf
        rcases List.mem_cons.mp hc2 with rfl | hc2b
        · rw [sweep_frame now key nonceA nonceR refresh rest _ c2.id hcid,
            getConnection_deactivate_self now st c2.id c2 hpc]
        · exact hfail c2 hc2b hf
      · intro c2 hc2 ht
        rcases List.mem_cons.mp hc2 with rfl | hc2b
        · rw [hok2] at ht
          exact absurd ht (by simp)
        · exact hsucc c2 hc2b ht

/-- C2 amended: `refresh_expiring_tokens` returns exactly the ids of the
expiring connections whose refresh attempt succeeded, and deactivates a
connection on EVERY failed attempt — the sweep catches every
`TokenError`, so a non-retriable `token_revoked` (provider
`invalid_grant`) and a transient `refresh_failed` (network or other
provider error) alike deactivate the connection; only successfully
refreshed connections stay as they were. -/
theorem c2_refresh_expiring_tokens_deactivates_on_any_error
    (now buffer : Nat) (key nonceA nonceR : List Nat)
    (refresh : String → Except TokenError TokenResponse) (st : Store)
    (hnd : (st.connections.map (fun c => c.id)).Nodup) :
    (TokenManager.refreshExpiringTokens now buffer key nonceA nonceR
      refresh st).1 =
      ((Storage.getExpiringConnections st (now + buffer)).filter
        (refreshAttemptOk key refresh)).map (fun c => c.id) ∧
    (∀ c ∈ Storage.getExpiringConnections st (now + buffer),
      refreshAttemptOk key refresh c = false →
      Storage.getConnection (TokenManager.refreshExpiringTokens now buffer
        key nonceA nonceR refresh st).2 c.id =
        some { c with is_active := false, updated_at := now }) ∧
    (∀ c ∈ Storage.getExpiringConnections st (now + buffer),
      refreshAttemptOk key refresh c = true →
      ∃ row, Storage.getConnection (TokenManager.refreshExpiringTokens now
        buffer key nonceA nonceR refresh st).2 c.id =
        some row ∧ row.is_active = c.is_active) := by
  have hpres : ∀ c ∈ Storage.getExpiringConnections st (now + buffer),
      Storage.getConnection st c.id = some c := by
    intro c hc
    exact getConnection_of_mem_nodup (List.mem_filter.mp hc).1 hnd
  have hnd2 : ((Storage.getExpiringConnections st (now + buffer)).map
      (fun c => c.id)).Nodup := by
    refine List.Nodup.sublist ?_ hnd
    exact List.Sublist.map _ (List.filter_sublist _)
  simp only [TokenManager.refreshExpiringTokens]
  exact sweep_spec now key nonceA nonceR refresh
    (Storage.getExpiringConnections st (now + buffer)) st hpres hnd2

/-- Witness for the amended C2 at a one-connection store whose stubbed
provider reports a transient network failure. -/
theorem c2_refresh_expiring_tokens_witness :
    ((Store.connections ⟨[], [⟨"c1", "u1", "a@gmail.test",
        TokenEncryption.encrypt [] (List.replicate 16 0) "AT",
        TokenEncryption.encrypt [] (List.replicate 16 0) "RT",
        1100, [], true, 0, 0, none⟩], []⟩).map (fun c => c.id)).Nodup ∧
    ((TokenManager.refreshExpiringTokens 1000 300 [] (List.replicate 16 0)
      (List.replicate 16 0)
      (fun _ => .error ⟨"Failed to connect to Google OAuth",
        "refresh_failed"⟩)
      ⟨[], [⟨"c1", "u1", "a@gmail.test",
        TokenEncryption.encrypt [] (List.replicate 16 0) "AT",
        TokenEncryption.encrypt [] (List.replicate 16 0) "RT",
        1100, [], true, 0, 0, none⟩], []⟩).1 =
      ((Storage.getExpiringConnections ⟨[], [⟨"c1", "u1", "a@gmail.test",
        TokenEncryption.encrypt [] (List.replicate 16 0) "AT",
        TokenEncryption.encrypt [] (List.replicate 16 0) "RT",
        1100, [], true, 0, 0, none⟩], []⟩ (1000 + 300)).filter
        (refreshAttemptOk []
          (fun _ => .error ⟨"Failed to connect to Google OAuth",
            "refresh_failed"⟩))).map (fun c => c.id) ∧
    (∀ c ∈ Storage.getExpiringConnections ⟨[], [⟨"c1", "u1", "a@gmail.test",
        TokenEncryption.encrypt [] (List.replicate 16 0) "AT",
        TokenEncryption.encrypt [] (List.replicate 16 0) "RT",
        1100, [], true, 0, 0, none⟩], []⟩ (1000 + 300),
      refreshAttemptOk []
        (fun _ => .error ⟨"Failed to connect to Google OAuth",
          "refresh_failed"⟩) c = false →
      Storage.getConnection (TokenManager.refreshExpiringTokens 1000 300 []
        (List.replicate 16 0) (List.replicate 16 0)
        (fun _ => .error ⟨"Failed to connect to Google OAuth",
          "refresh_failed"⟩)
        ⟨[], [⟨"c1", "u1", "a@gmail.test",
          TokenEncryption.encrypt [] (List.replicate 16 0) "AT",
          TokenEncryption.encrypt [] (List.replicate 16 0) "RT",
          1100, [], true, 0, 0, none⟩], []⟩).2 c.id =
        some { c with is_active := false, updated_at := 1000 }) ∧
    (∀ c ∈ Storage.getExpiringConnections ⟨[], [⟨"c1", "u1", "a@gmail.test",
        TokenEncryption.encrypt [] (List.replicate 16 0) "AT",
        TokenEncryption.encrypt [] (List.replicate 16 0) "RT",
        1100, [], true, 0, 0, none⟩], []⟩ (1000 + 300),
      refreshAttemptOk []
        (fun _ => .error ⟨"Failed to connect to Google OAuth",
          "refresh_failed"⟩) c = true →
      ∃ row, Storage.getConnection (TokenManager.refreshExpiringTokens
        1000 300 [] (List.replicate 16 0) (List.replicate 16 0)
        (fun _ => .error ⟨"Failed to connect to Google OAuth",
          "refresh_failed"⟩)
        ⟨[], [⟨"c1", "u1", "a@gmail.test",
          TokenEncryption.encrypt [] (List.replicate 16 0) "AT",
          TokenEncryption.encrypt [] (List.replicate 16 0) "RT",
          1100, [], true, 0, 0, none⟩], []⟩).2 c.id =
        some row ∧ row.is_active = c.is_active)) :=
  ⟨by decide,
    c2_refresh_expiring_tokens_deactivates_on_any_error 1000 300 []
      (List.replicate 16 0) (List.replicate 16 0)
      (fun _ => .error ⟨"Failed to connect to Google OAuth",
        "refresh_failed"⟩)
      ⟨[], [⟨"c1", "u1", "a@gmail.test",
        TokenEncryption.encrypt [] (List.replicate 16 0) "AT",
        TokenEncryption.encrypt [] (List.replicate 16 0) "RT",
        1100, [], true, 0, 0, none⟩], []⟩ (by decide)⟩

theorem encrypt_ne_empty (key nonce : List Nat) (s : String) :
    TokenEncryption.encrypt key nonce s ≠ "" := by
  rw [TokenEncryption.encrypt]
  intro h
  have hd := congrArg String.data h
  simp only at hd
  have hl := congrArg List.length hd
  rw [B64.encode_length] at hl
  have hb : 32 ≤ (Fernet.encryptBytes key nonce (UTF8.encode s)).length := by
    rw [Fernet.encryptBytes]
    simp only [List.length_append, Fernet.tag, SHA256.sha256_length]
    omega
  simp only [List.length_nil] at hl
  omega

/-- C9: when the provider's refresh response carries no new refresh
token, the persisted row keeps its old `refresh_token_encrypted`
unchanged while `access_token_encrypted` and `token_expires_at` are
replaced; when the provider does issue a new (non-empty) refresh token,
`refresh_token_encrypted` is replaced by its encryption as well. -/
theorem c9_refresh_preserves_refresh_token (now : Nat)
    (key nonceA nonceR : List Nat)
    (refresh : String → Except TokenError TokenResponse)
    (st : Store) (c : Connection) (rt : String) (tr : TokenResponse)
    (hdec : TokenEncryption.decrypt key c.refresh_token_encrypted =
      .ok rt)
    (hrt : rt ≠ "") (href : refresh rt = .ok tr)
    (hid : Storage.getConnection st c.id = some c) :
    ∃ row st2,
      TokenManager.refreshTokenInternal now key nonceA nonceR refresh st c
        = (.ok (row, st2), 1) ∧
      Storage.getConnection st2 c.id = some row ∧
      row.access_token_encrypted =
        TokenEncryption.encrypt key nonceA tr.access_token ∧
      row.token_expires_at = tr.expires_at ∧
      (tr.refresh_token = none →
        row.refresh_token_encrypted = c.refresh_token_encrypted) ∧
      (∀ newRt, tr.refresh_token = some newRt → newRt ≠ "" →
        row.refresh_token_encrypted =
          TokenEncryption.encrypt key nonceR newRt) := by
  have hcid : c.id = c.id := rfl
  refine ⟨Storage.tokenRow now c.id
      (TokenEncryption.encrypt key nonceA tr.access_token)
      (match tr.refresh_token with
       | some r => if r = "" then none
                   else some (TokenEncryption.encrypt key nonceR r)
       | none => none)
      tr.expires_at c,
    _, refreshTokenInternal_ok now key nonceA nonceR refresh st c rt tr
      hdec hrt href hid, ?_, ?_, ?_, ?_, ?_⟩
  · rw [getConnection_map _ _ (tokenRow_id now c.id _ _ _), hid,
      Option.map_some']
  · rw [Storage.tokenRow.eq_def, if_pos hcid]
  · rw [Storage.tokenRow.eq_def, if_pos hcid]
  · intro hnone
    rw [Storage.tokenRow.eq_def, if_pos hcid, hnone]
  · intro newRt hsome hne
    rw [Storage.tokenRow.eq_def, if_pos hcid, hsome]
    simp only [if_neg hne]
    rw [if_neg (encrypt_ne_empty key nonceR newRt)]

/-- Witness for C9: a provider response with no new refresh token. -/
theorem c9_refresh_preserves_refresh_token_witness :
    TokenEncryption.decrypt [] (TokenEncryption.encrypt []
      (List.replicate 16 0) "RT") = .ok "RT" ∧
    ("RT" : String) ≠ "" ∧
    (∃ row st2,
      TokenManager.refreshTokenInternal 1000 [] (List.replicate 16 0)
        (List.replicate 16 0)
        (fun _ => .ok ⟨"AT2", none, 9999, "Bearer", ""⟩)
        ⟨[], [⟨"c1", "u1", "a@gmail.test",
          TokenEncryption.encrypt [] (List.replicate 16 0) "AT",
          TokenEncryption.encrypt [] (List.replicate 16 0) "RT",
          1100, [], true, 0, 0, none⟩], []⟩
        ⟨"c1", "u1", "a@gmail.test",
          TokenEncryption.encrypt [] (List.replicate 16 0) "AT",
          TokenEncryption.encrypt [] (List.replicate 16 0) "RT",
          1100, [], true, 0, 0, none⟩
        = (.ok (row, st2), 1) ∧
      Storage.getConnection st2 "c1" = some row ∧
      row.access_token_encrypted =
        TokenEncryption.encrypt [] (List.replicate 16 0) "AT2" ∧
      row.token_expires_at = 9999 ∧
      ((none : Option String) = none →
        row.refresh_token_encrypted =
          TokenEncryption.encrypt [] (List.replicate 16 0) "RT") ∧
      (∀ newRt, (none : Option String) = some newRt → newRt ≠ "" →
        row.refresh_token_encrypted =
          TokenEncryption.encrypt [] (List.replicate 16 0) newRt)) := by
  refine ⟨TokenEncryption.decrypt_encrypt [] (List.replicate 16 0) "RT"
      (by decide) (by decide), by decide, ?_⟩
  have h := c9_refresh_preserves_refresh_token 1000 []
    (List.replicate 16 0) (List.replicate 16 0)
    (fun _ => .ok ⟨"AT2", none, 9999, "Bearer", ""⟩)
    ⟨[], [⟨"c1", "u1", "a@gmail.test",
      TokenEncryption.encrypt [] (List.replicate 16 0) "AT",
      TokenEncryption.encrypt [] (List.replicate 16 0) "RT",
      1100, [], true, 0, 0, none⟩], []⟩
    ⟨"c1", "u1", "a@gmail.test",
      TokenEncryption.encrypt [] (List.replicate 16 0) "AT",
      TokenEncryption.encrypt [] (List.replicate 16 0) "RT",
      1100, [], true, 0, 0, none⟩
    "RT" ⟨"AT2", none, 9999, "Bearer", ""⟩
    (TokenEncryption.decrypt_encrypt [] (List.replicate 16 0) "RT"
      (by decide) (by decide))
    (by decide) rfl rfl
  exact h

/-- The state consumption never touches the connection or user tables. -/
theorem validateAndConsume_store (now : Nat) (st : Store) (state : String) :
    (OAuthStateManager.validateAndConsume now st state).2.connections =
      st.connections ∧
    (OAuthStateManager.validateAndConsume now st state).2.users =
      st.users := by
  rw [OAuthStateManager.validateAndConsume]
  cases Storage.getOAuthState st state with
  | none => exact ⟨rfl, rfl⟩
  | some os =>
    simp only
    split <;> exact ⟨rfl, rfl⟩

/-- C4 counterexample: re-authorizing an existing connection rewrites its
`updated_at` (the SQL `UPDATE` stamps `updated_at = now`), so not every
field other than the tokens and expiry is left unchanged.  (`is_active`
IS left unchanged, as the rest of the claim says.) -/
theorem c4_counterexample :
    ∃ row, Storage.getConnection
      (OAuthManager.handleCallback 100 [] (List.replicate 16 0)
        (List.replicate 16 0)
        (fun _ _ _ => .ok ⟨"AT2", some "RT2", 9999, "Bearer", ""⟩)
        (fun _ => .ok ⟨"a@gmail.test", true⟩)
        "newid"
        ⟨[⟨"u1", "ext1", none, 0, 0⟩],
         [⟨"c1", "u1", "a@gmail.test", "oldAT", "oldRT", 500, [], true, 0,
           5, none⟩],
         [⟨"sid", "tok", "u1", ["s"], "uri", "ver", 1000, 0⟩]⟩
        "code" "tok").2 "c1" = some row ∧
      row.updated_at = 100 ∧ row.updated_at ≠ 5 ∧ row.is_active = true := by
  refine ⟨⟨"c1", "u1", "a@gmail.test",
    TokenEncryption.encrypt [] (List.replicate 16 0) "AT2",
    TokenEncryption.encrypt [] (List.replicate 16 0) "RT2",
    9999, [], true, 0, 100, none⟩, rfl, rfl, by decide, rfl⟩

/-- C4 amended: a successful callback for a `(user_id, address)` pair
that already has a stored connection updates that row in place — the
returned `connection_id` equals the existing one, no row is added or
removed, users are untouched — replacing exactly the two encrypted
tokens, `token_expires_at`, and `updated_at` (which the `UPDATE` stamps
with the current time); every other field, in particular `is_active`, is
unchanged: a previously deactivated connection stays deactivated. -/
theorem c4_handle_callback_updates_in_place (now : Nat)
    (key nonceA nonceR : List Nat)
    (exchangeCode : String → String → String →
      Except AuthError TokenResponse)
    (getUserInfo : String → Except AuthError UserInfo)
    (newConnId : String) (st st1 : Store) (code state : String)
    (os : OAuthState) (tr : TokenResponse) (ui : UserInfo)
    (existing : Connection)
    (hvc : OAuthStateManager.validateAndConsume now st state =
      (.ok os, st1))
    (hex : exchangeCode code os.code_verifier os.redirect_uri = .ok tr)
    (hui : getUserInfo tr.access_token = .ok ui)
    (hfound : Storage.getConnectionByUserAndEmail st1 os.user_id ui.email =
      some existing)
    (hid : Storage.getConnection st1 existing.id = some existing) :
    ((OAuthManager.handleCallback now key nonceA nonceR exchangeCode
      getUserInfo newConnId st code state).1.success = true) ∧
    ((OAuthManager.handleCallback now key nonceA nonceR exchangeCode
      getUserInfo newConnId st code state).1.connection_id =
      some existing.id) ∧
    (Storage.getConnection (OAuthManager.handleCallback now key nonceA
      nonceR exchangeCode getUserInfo newConnId st code state).2
      existing.id =
      some { existing with
        access_token_encrypted :=
          TokenEncryption.encrypt key nonceA tr.access_token,
        refresh_token_encrypted :=
          TokenEncryption.encrypt key nonceR (tr.refresh_token.getD ""),
        token_expires_at := tr.expires_at,
        updated_at := now }) ∧
    ((OAuthManager.handleCallback now key nonceA nonceR exchangeCode
      getUserInfo newConnId st code state).2.connections.length =
      st.connections.length) ∧
    ((OAuthManager.handleCallback now key nonceA nonceR exchangeCode
      getUserInfo newConnId st code state).2.users = st.users) := by
  have hcid : existing.id = existing.id := rfl
  have hupd := updateConnectionTokens_found now st1 existing.id existing
    (TokenEncryption.encrypt key nonceA tr.access_token)
    (some (TokenEncryption.encrypt key nonceR (tr.refresh_token.getD "")))
    tr.expires_at hid
  have hcall : OAuthManager.handleCallback now key nonceA nonceR
      exchangeCode getUserInfo newConnId st code state =
      (⟨true,
        some (Storage.tokenRow now existing.id
          (TokenEncryption.encrypt key nonceA tr.access_token)
          (some (TokenEncryption.encrypt key nonceR
            (tr.refresh_token.getD "")))
          tr.expires_at existing).id,
        (Storage.getUserById { st1 with
          connections := st1.connections.map (Storage.tokenRow now
            existing.id
            (TokenEncryption.encrypt key nonceA tr.access_token)
            (some (TokenEncryption.encrypt key nonceR
              (tr.refresh_token.getD "")))
            tr.expires_at) } os.user_id).map
          (fun u => u.external_user_id),
        some ui.email, none⟩,
      { st1 with connections := st1.connections.map (Storage.tokenRow now
        existing.id
        (TokenEncryption.encrypt key nonceA tr.access_token)
        (some (TokenEncryption.encrypt key nonceR
          (tr.refresh_token.getD "")))
        tr.expires_at) }) := by
    rw [OAuthManager.handleCallback, hvc]
    simp only
    rw [hex]
    simp only
    rw [hui]
    simp only
    rw [hfound]
    simp only
    rw [hupd]
  rw [hcall]
  have hrow : Storage.tokenRow now existing.id
      (TokenEncryption.encrypt key nonceA tr.access_token)
      (some (TokenEncryption.encrypt key nonceR (tr.refresh_token.getD "")))
      tr.expires_at existing =
      { existing with
        access_token_encrypted :=
          TokenEncryption.encrypt key nonceA tr.access_token,
        refresh_token_encrypted :=
          TokenEncryption.encrypt key nonceR (tr.refresh_token.getD ""),
        token_expires_at := tr.expires_at,
        updated_at := now } := by
    rw [Storage.tokenRow.eq_def, if_pos hcid]
    simp only
    rw [if_neg (encrypt_ne_empty key nonceR (tr.refresh_token.getD ""))]
  have hconn := (validateAndConsume_store now st state).1
  rw [hvc] at hconn
  have husers := (validateAndConsume_store now st state).2
  rw [hvc] at husers
  refine ⟨rfl, ?_, ?_, ?_, ?_⟩
  · simp only [tokenRow_id]
  · rw [getConnection_map _ _ (tokenRow_id now existing.id _ _ _), hid,
      Option.map_some', hrow]
  · simp only [List.length_map]
    rw [hconn]
  · exact husers

/-- Witness for the amended C4 re-authorizing a previously deactivated
connection: the tokens, expiry and `updated_at` change, `is_active`
stays `false`. -/
theorem c4_handle_callback_updates_in_place_witness :
    (OAuthStateManager.validateAndConsume 100
      ⟨[⟨"u1", "ext1", none, 0, 0⟩],
       [⟨"c1", "u1", "a@gmail.test", "oldAT", "oldRT", 500, [], false, 0,
         5, none⟩],
       [⟨"sid", "tok", "u1", ["s"], "uri", "ver", 1000, 0⟩]⟩ "tok" =
      (.ok ⟨"sid", "tok", "u1", ["s"], "uri", "ver", 1000, 0⟩,
        ⟨[⟨"u1", "ext1", none, 0, 0⟩],
         [⟨"c1", "u1", "a@gmail.test", "oldAT", "oldRT", 500, [], false, 0,
           5, none⟩], []⟩)) ∧
    (Storage.getConnectionByUserAndEmail
      ⟨[⟨"u1", "ext1", none, 0, 0⟩],
       [⟨"c1", "u1", "a@gmail.test", "oldAT", "oldRT", 500, [], false, 0,
         5, none⟩], []⟩ "u1" "a@gmail.test" =
      some ⟨"c1", "u1", "a@gmail.test", "oldAT", "oldRT", 500, [], false,
        0, 5, none⟩) ∧
    ((OAuthManager.handleCallback 100 [] (List.replicate 16 0)
      (List.replicate 16 0)
      (fun _ _ _ => .ok ⟨"AT2", some "RT2", 9999, "Bearer", ""⟩)
      (fun _ => .ok ⟨"a@gmail.test", true⟩) "newid"
      ⟨[⟨"u1", "ext1", none, 0, 0⟩],
       [⟨"c1", "u1", "a@gmail.test", "oldAT", "oldRT", 500, [], false, 0,
         5, none⟩],
       [⟨"sid", "tok", "u1", ["s"], "uri", "ver", 1000, 0⟩]⟩
      "code" "tok").1.connection_id = some "c1") ∧
    (Storage.getConnection (OAuthManager.handleCallback 100 []
      (List.replicate 16 0) (List.replicate 16 0)
      (fun _ _ _ => .ok ⟨"AT2", some "RT2", 9999, "Bearer", ""⟩)
      (fun _ => .ok ⟨"a@gmail.test", true⟩) "newid"
      ⟨[⟨"u1", "ext1", none, 0, 0⟩],
       [⟨"c1", "u1", "a@gmail.test", "oldAT", "oldRT", 500, [], false, 0,
         5, none⟩],
       [⟨"sid", "tok", "u1", ["s"], "uri", "ver", 1000, 0⟩]⟩
      "code" "tok").2 "c1" =
      some { (⟨"c1", "u1", "a@gmail.test", "oldAT", "oldRT", 500, [],
          false, 0, 5, none⟩ : Connection) with
        access_token_encrypted :=
          TokenEncryption.encrypt [] (List.replicate 16 0) "AT2",
        refresh_token_encrypted :=
          TokenEncryption.encrypt [] (List.replicate 16 0)
            ((some "RT2" : Option String).getD ""),
        token_expires_at := 9999,
        updated_at := 100 }) := by
  have h := c4_handle_callback_updates_in_place 100 []
    (List.replicate 16 0) (List.replicate 16 0)
    (fun _ _ _ => .ok ⟨"AT2", some "RT2", 9999, "Bearer", ""⟩)
    (fun _ => .ok ⟨"a@gmail.test", true⟩) "newid"
    ⟨[⟨"u1", "ext1", none, 0, 0⟩],
     [⟨"c1", "u1", "a@gmail.test", "oldAT", "oldRT", 500, [], false, 0, 5,
       none⟩],
     [⟨"sid", "tok", "u1", ["s"], "uri", "ver", 1000, 0⟩]⟩
    ⟨[⟨"u1", "ext1", none, 0, 0⟩],
     [⟨"c1", "u1", "a@gmail.test", "oldAT", "oldRT", 500, [], false, 0, 5,
       none⟩], []⟩
    "code" "tok"
    ⟨"sid", "tok", "u1", ["s"], "uri", "ver", 1000, 0⟩
    ⟨"AT2", some "RT2", 9999, "Bearer", ""⟩
    ⟨"a@gmail.test", true⟩
    ⟨"c1", "u1", "a@gmail.test", "oldAT", "oldRT", 500, [], false, 0, 5,
      none⟩
    rfl rfl rfl rfl rfl
  exact ⟨rfl, rfl, h.2.1, h.2.2.1⟩

/-- C10: when the provider returns no refresh token, `handle_callback`
stores `encrypt("")` — a real ciphertext under the configured key, not a
null or missing value — as the new connection's
`refresh_token_encrypted`; a later forced refresh of that connection
decrypts it successfully to the empty string and fails with
`TokenError("needs_reauth")`, not with an encryption error. -/
theorem c10_empty_refresh_token_needs_reauth (now : Nat)
    (key nonceA nonceR : List Nat)
    (exchangeCode : String → String → String →
      Except AuthError TokenResponse)
    (getUserInfo : String → Except AuthError UserInfo)
    (newConnId : String) (st st1 : Store) (code state : String)
    (os : OAuthState) (tr : TokenResponse) (ui : UserInfo)
    (hvc : OAuthStateManager.validateAndConsume now st state =
      (.ok os, st1))
    (hex : exchangeCode code os.code_verifier os.redirect_uri = .ok tr)
    (hnone : tr.refresh_token = none)
    (hui : getUserInfo tr.access_token = .ok ui)
    (hnotfound : Storage.getConnectionByUserAndEmail st1 os.user_id
      ui.email = none)
    (hn : nonceR.length = 16) (hnb : ∀ b ∈ nonceR, b < 256) :
    ((OAuthManager.handleCallback now key nonceA nonceR exchangeCode
      getUserInfo newConnId st code state).1.success = true) ∧
    ((OAuthManager.handleCallback now key nonceA nonceR exchangeCode
      getUserInfo newConnId st code state).1.connection_id =
      some newConnId) ∧
    ∃ row, Storage.getConnection (OAuthManager.handleCallback now key
        nonceA nonceR exchangeCode getUserInfo newConnId st code
        state).2 newConnId = some row ∧
      row.refresh_token_encrypted = TokenEncryption.encrypt key nonceR "" ∧
      row.refresh_token_encrypted ≠ "" ∧
      TokenEncryption.decrypt key row.refresh_token_encrypted =
        Except.ok "" ∧
      ∀ (now2 : Nat) (nonceA2 nonceR2 : List Nat)
        (refresh2 : String → Except TokenError TokenResponse),
        (TokenManager.refreshToken now2 key nonceA2 nonceR2 refresh2
          (OAuthManager.handleCallback now key nonceA nonceR exchangeCode
            getUserInfo newConnId st code state).2 newConnId).1 =
          .error (.tokenError ⟨"No refresh token available",
            "needs_reauth"⟩) := by
  have hcall : OAuthManager.handleCallback now key nonceA nonceR
      exchangeCode getUserInfo newConnId st code state =
      (⟨true, some newConnId,
        (Storage.getUserById { st1 with connections :=
          (⟨newConnId, os.user_id, ui.email,
            TokenEncryption.encrypt key nonceA tr.access_token,
            TokenEncryption.encrypt key nonceR (tr.refresh_token.getD ""),
            tr.expires_at, os.scopes, true, now, now, none⟩ : Connection)
            :: st1.connections } os.user_id).map
          (fun u => u.external_user_id),
        some ui.email, none⟩,
      { st1 with connections :=
        (⟨newConnId, os.user_id, ui.email,
          TokenEncryption.encrypt key nonceA tr.access_token,
          TokenEncryption.encrypt key nonceR (tr.refresh_token.getD ""),
          tr.expires_at, os.scopes, true, now, now, none⟩ : Connection)
          :: st1.connections }) := by
    rw [OAuthManager.handleCallback, hvc]
    simp only
    rw [hex]
    simp only
    rw [hui]
    simp only
    rw [hnotfound]
    simp only [Storage.createConnection]
  have hgetd : tr.refresh_token.getD "" = "" := by rw [hnone]; rfl
  have hrow : Storage.getConnection (OAuthManager.handleCallback now key
      nonceA nonceR exchangeCode getUserInfo newConnId st code state).2
      newConnId =
      some ⟨newConnId, os.user_id, ui.email,
        TokenEncryption.encrypt key nonceA tr.access_token,
        TokenEncryption.encrypt key nonceR (tr.refresh_token.getD ""),
        tr.expires_at, os.scopes, true, now, now, none⟩ := by
    rw [hcall, Storage.getConnection]
    exact List.find?_cons_of_pos _ (by simp)
  refine ⟨by rw [hcall], by rw [hcall], _, hrow, by rw [hgetd],
    by rw [hgetd]; exact encrypt_ne_empty key nonceR "", ?_, ?_⟩
  · rw [hgetd]
    exact TokenEncryption.decrypt_encrypt key nonceR "" hn hnb
  · intro now2 nonceA2 nonceR2 refresh2
    rw [TokenManager.refreshToken, hrow]
    simp only
    rw [refreshTokenInternal_err_empty now2 key nonceA2 nonceR2 refresh2
      _ _ (by
        show TokenEncryption.decrypt key
          (TokenEncryption.encrypt key nonceR (tr.refresh_token.getD ""))
          = Except.ok ""
        rw [hgetd]
        exact TokenEncryption.decrypt_encrypt key nonceR "" hn hnb)]

/-- Witness for C10 at a concrete store, with a provider response that
carries no refresh token. -/
theorem c10_empty_refresh_token_needs_reauth_witness :
    (OAuthStateManager.validateAndConsume 100
      ⟨[⟨"u1", "ext1", none, 0, 0⟩], [],
       [⟨"sid", "tok", "u1", ["s"], "uri", "ver", 1000, 0⟩]⟩ "tok" =
      (.ok ⟨"sid", "tok", "u1", ["s"], "uri", "ver", 1000, 0⟩,
        ⟨[⟨"u1", "ext1", none, 0, 0⟩], [], []⟩)) ∧
    ((⟨"AT2", none, 9999, "Bearer", ""⟩ : TokenResponse).refresh_token =
      none) ∧
    (List.replicate 16 0).length = 16 ∧
    (∀ b ∈ List.replicate 16 0, b < 256) ∧
    (((OAuthManager.handleCallback 100 [] (List.replicate 16 0)
      (List.replicate 16 0)
      (fun _ _ _ => .ok ⟨"AT2", none, 9999, "Bearer", ""⟩)
      (fun _ => .ok ⟨"a@gmail.test", true⟩) "newid"
      ⟨[⟨"u1", "ext1", none, 0, 0⟩], [],
       [⟨"sid", "tok", "u1", ["s"], "uri", "ver", 1000, 0⟩]⟩
      "code" "tok").1.success = true) ∧
    ((OAuthManager.handleCallback 100 [] (List.replicate 16 0)
      (List.replicate 16 0)
      (fun _ _ _ => .ok ⟨"AT2", none, 9999, "Bearer", ""⟩)
      (fun _ => .ok ⟨"a@gmail.test", true⟩) "newid"
      ⟨[⟨"u1", "ext1", none, 0, 0⟩], [],
       [⟨"sid", "tok", "u1", ["s"], "uri", "ver", 1000, 0⟩]⟩
      "code" "tok").1.connection_id = some "newid") ∧
    ∃ row, Storage.getConnection (OAuthManager.handleCallback 100 []
        (List.replicate 16 0) (List.replicate 16 0)
        (fun _ _ _ => .ok ⟨"AT2", none, 9999, "Bearer", ""⟩)
        (fun _ => .ok ⟨"a@gmail.test", true⟩) "newid"
        ⟨[⟨"u1", "ext1", none, 0, 0⟩], [],
         [⟨"sid", "tok", "u1", ["s"], "uri", "ver", 1000, 0⟩]⟩
        "code" "tok").2 "newid" = some row ∧
      row.refresh_token_encrypted = TokenEncryption.encrypt []
        (List.replicate 16 0) "" ∧
      row.refresh_token_encrypted ≠ "" ∧
      TokenEncryption.decrypt [] row.refresh_token_encrypted =
        Except.ok "" ∧
      ∀ (now2 : Nat) (nonceA2 nonceR2 : List Nat)
        (refresh2 : String → Except TokenError TokenResponse),
        (TokenManager.refreshToken now2 [] nonceA2 nonceR2 refresh2
          (OAuthManager.handleCallback 100 [] (List.replicate 16 0)
            (List.replicate 16 0)
            (fun _ _ _ => .ok ⟨"AT2", none, 9999, "Bearer", ""⟩)
            (fun _ => .ok ⟨"a@gmail.test", true⟩) "newid"
            ⟨[⟨"u1", "ext1", none, 0, 0⟩], [],
             [⟨"sid", "tok", "u1", ["s"], "uri", "ver", 1000, 0⟩]⟩
            "code" "tok").2 "newid").1 =
          .error (.tokenError ⟨"No refresh token available",
            "needs_reauth"⟩)) :=
  ⟨rfl, rfl, by decide, by decide,
    c10_empty_refresh_token_needs_reauth 100 [] (List.replicate 16 0)
      (List.replicate 16 0)
      (fun _ _ _ => .ok ⟨"AT2", none, 9999, "Bearer", ""⟩)
      (fun _ => .ok ⟨"a@gmail.test", true⟩) "newid"
      ⟨[⟨"u1", "ext1", none, 0, 0⟩], [],
       [⟨"sid", "tok", "u1", ["s"], "uri", "ver", 1000, 0⟩]⟩
      ⟨[⟨"u1", "ext1", none, 0, 0⟩], [], []⟩
      "code" "tok"
      ⟨"sid", "tok", "u1", ["s"], "uri", "ver", 1000, 0⟩
      ⟨"AT2", none, 9999, "Bearer", ""⟩
      ⟨"a@gmail.test", true⟩
      rfl rfl rfl rfl rfl (by decide) (by decide)⟩
